import Mathlib

/-!
The SASL protection layer of mutt (`mutt_sasl.c`).

A shallow embedding of the connection wrappers of `src/mutt_sasl.c`:
`mutt_sasl_setup_conn`, `mutt_sasl_conn_open`, `mutt_sasl_conn_close`,
`mutt_sasl_conn_read` and `mutt_sasl_conn_write`.

Conventions of the embedding.

* Memory.  `conn->sockdata` is a `void*`; here it is a `Ptr`, either a pointer
  owned by the transport beneath (`Ptr.foreign`) or the address of a
  `SASL_DATA` obtained from `safe_malloc` (`Ptr.sasldata`).  The `SASL_DATA`
  objects live in `State.heap`; `FREE (&sasldata)` removes the object.
* Function pointers.  A method slot holds a `Method`: the address of a
  transport function (`Method.native`) or the SASL wrapper of that slot
  (`Method.sasl`, i.e. `mutt_sasl_conn_open` in an open slot, and so on).
* The collaborators (the transport functions and the SASL library) are the
  fields of `Env`; they act on an arbitrary world `W` and see the connection's
  data-slot.  Every call to one of them is appended to `State.trace` together
  with the connection as it was at the moment of the call.
* A call through a saved slot that itself holds a wrapper (two stacked SASL
  layers) and a wrapper entered with a data-slot that is no live `SASL_DATA`
  are outside the model: the operations return `none` there.  `none` is also
  the answer when a `do ... while` loop has not finished within the fuel given.
* Numbers.  Byte counts are `Nat` and result codes are `Int`, unbounded: the
  source's conversions between `int`, `unsigned` and `size_t` are the identity
  on every count below `2^31`, which is assumed of all lengths.  The one
  arithmetic operation on a counter, `conn->ssf += *sasldata->ssf` on
  `unsigned int`, is taken modulo `2^32` (`uint_add`).
* `#ifdef USE_SASL2` is the field `Env.USE_SASL2`.
* Uninitialised pointers.  `sasl_getprop` may return without storing anything
  behind its out-pointer; the pointer field of the fresh `SASL_DATA` is then
  uninitialised, and an operation that dereferences it (`*sasldata->ssf`,
  `*sasldata->pbufsize`) has no defined result: `none`.  The macro `dprint` is
  not part of the sources; whether `dprint (3, ...)` evaluates its arguments
  is the field `Env.dprint3`.
-/

namespace MuttSasl

/-- One `char` of a buffer. -/
abbrev Byte := Nat

/-- The success status of the SASL library. -/
def SASL_OK : Int := 0

/-- The number of values of an `unsigned int` (32 bits), the type of the
strength factors. -/
def UINT_RANGE : Nat := 4294967296

/-- The sum of two `unsigned int` as `+=` computes it. -/
def uint_add (x y : Nat) : Nat := (x + y) % UINT_RANGE

/-- The two properties queried by `mutt_sasl_setup_conn`. -/
inductive SaslProp where
  | SASL_SSF
  | SASL_MAXOUTBUF
deriving DecidableEq, Repr

/-- A data-slot value (`void* sockdata`). -/
inductive Ptr where
  | foreign (p : Nat)
  | sasldata (a : Nat)
deriving DecidableEq, Repr

/-- A function pointer held by a method slot. -/
inductive Method where
  | native (f : Nat)
  | sasl
deriving DecidableEq, Repr

/-- Modelled from the spec: the declaration of `CONNECTION` (mutt_socket.h) is
not part of the sources; these are the fields the wrappers use: the cumulative
strength factor, the data-slot and the four function-slots (`conn->open`,
`conn->close`, `conn->read`, `conn->write`). -/
structure CONNECTION where
  ssf : Nat
  sockdata : Ptr
  conn_open : Method
  conn_close : Method
  conn_read : Method
  conn_write : Method
deriving DecidableEq, Repr

/-- Modelled from the spec: the declaration of `SASL_DATA` (mutt_sasl.h) is not
part of the sources; these are the fields the wrappers use.  `ssf` and
`pbufsize` are the values found behind the pointers of the same name, read once
and taken not to change while the layer is attached; `pbufsize` is `none` when
`sasl_getprop` stored nothing there (an uninitialised pointer; for `ssf` that
case does not outlive `mutt_sasl_setup_conn`, which dereferences it); `buf`,
`blen`, `bpos` are the pending decoded data; `sockdata` and `msasl_open` ...
`msasl_write` are the saved data-slot and the saved `open`, `close`, `read`,
`write` slots. -/
structure SASL_DATA where
  saslconn : Nat
  ssf : Nat
  pbufsize : Option Nat
  buf : List Byte
  blen : Nat
  bpos : Nat
  sockdata : Ptr
  msasl_open : Method
  msasl_close : Method
  msasl_read : Method
  msasl_write : Method
deriving DecidableEq, Repr

/-- One call to a collaborator: its arguments (for a transport function the
connection as it was when called) and what it returned. -/
inductive Event where
  | sasl_getprop (saslconn : Nat) (prop : SaslProp) (rc : Int) (value : Option Nat)
  | sasl_encode (saslconn : Nat) (input : List Byte) (inputlen : Nat) (rc : Int)
      (output : List Byte)
  | sasl_decode (saslconn : Nat) (input : List Byte) (inputlen : Nat) (rc : Int)
      (output : List Byte)
  | sasl_dispose (saslconn : Nat)
  | conn_open (f : Nat) (conn : CONNECTION) (rc : Int)
  | conn_close (f : Nat) (conn : CONNECTION) (rc : Int)
  | conn_read (f : Nat) (conn : CONNECTION) (buf : List Byte) (len : Nat) (rc : Int)
      (filled : List Byte)
  | conn_write (f : Nat) (conn : CONNECTION) (buf : List Byte) (len : Nat) (rc : Int)
deriving DecidableEq, Repr

/-- The collaborators.  A transport function is selected by its address and is
given the data-slot of the connection; `conn_read` is given the caller's buffer
and returns it as it is after the call.  `sasl_getprop` returns its status and
the value behind the pointer it stored through its out-parameter, `none` when
it stored nothing; `sasl_encode` and `sasl_decode` return their status and the
output buffer (its length is the output length `plen`, `blen`).  `dprint3`
says whether `dprint (3, ...)` evaluates its arguments (a build with `DEBUG`
and a debug level of at least 3). -/
structure Env (W : Type) where
  USE_SASL2 : Bool
  dprint3 : Bool
  conn_open : Nat → Ptr → W → Int × W
  conn_close : Nat → Ptr → W → Int × W
  conn_read : Nat → Ptr → List Byte → Nat → W → Int × List Byte × W
  conn_write : Nat → Ptr → List Byte → Nat → W → Int × W
  sasl_getprop : Nat → SaslProp → W → Int × Option Nat × W
  sasl_encode : Nat → List Byte → Nat → W → Int × List Byte × W
  sasl_decode : Nat → List Byte → Nat → W → Int × List Byte × W
  sasl_dispose : Nat → W → W

/-- The connection, the allocated `SASL_DATA` objects, the next address
`safe_malloc` hands out, the world of the collaborators and the calls made to
them so far. -/
structure State (W : Type) where
  conn : CONNECTION
  heap : Nat → Option SASL_DATA
  brk : Nat
  world : W
  trace : List Event

/-- Writing the object at address `a`. -/
def heapSet (h : Nat → Option SASL_DATA) (a : Nat) (d : SASL_DATA) : Nat → Option SASL_DATA :=
  fun x => if x = a then some d else h x

/-- Freeing the object at address `a`. -/
def heapFree (h : Nat → Option SASL_DATA) (a : Nat) : Nat → Option SASL_DATA :=
  fun x => if x = a then none else h x

/-- The cast `sasldata = (SASL_DATA*) conn->sockdata`: the address and the object. -/
def sasldata_of {W : Type} (s : State W) : Option (Nat × SASL_DATA) :=
  match s.conn.sockdata with
  | Ptr.foreign _ => none
  | Ptr.sasldata a =>
    match s.heap a with
    | none => none
    | some d => some (a, d)

/-- The assignment `conn->sockdata = p`. -/
def set_sockdata {W : Type} (s : State W) (p : Ptr) : State W :=
  { s with conn := { s.conn with sockdata := p } }

/-- Storing the fields of `*sasldata` and `conn->sockdata = sasldata`. -/
def relayer {W : Type} (s : State W) (a : Nat) (d : SASL_DATA) : State W :=
  { s with conn := { s.conn with sockdata := Ptr.sasldata a }, heap := heapSet s.heap a d }

/-- The copy `memcpy (buf, src, olen)`. -/
def memcpy (buf src : List Byte) (olen : Nat) : List Byte :=
  src.take olen ++ buf.drop olen

/-- The call `(sasldata->open) (conn)`. -/
def call_open {W : Type} (env : Env W) (m : Method) (s : State W) : Option (Int × State W) :=
  match m with
  | Method.sasl => none
  | Method.native f =>
    let r := env.conn_open f s.conn.sockdata s.world
    let s1 : State W :=
      { s with
        world := r.2
        trace := s.trace ++ [Event.conn_open f s.conn r.1] }
    some (r.1, s1)

/-- The call `(conn->close) (conn)`. -/
def call_close {W : Type} (env : Env W) (m : Method) (s : State W) : Option (Int × State W) :=
  match m with
  | Method.sasl => none
  | Method.native f =>
    let r := env.conn_close f s.conn.sockdata s.world
    let s1 : State W :=
      { s with
        world := r.2
        trace := s.trace ++ [Event.conn_close f s.conn r.1] }
    some (r.1, s1)

/-- The call `(sasldata->read) (conn, buf, len)`: result and the buffer afterwards. -/
def call_read {W : Type} (env : Env W) (m : Method) (buf : List Byte) (len : Nat)
    (s : State W) : Option (Int × List Byte × State W) :=
  match m with
  | Method.sasl => none
  | Method.native f =>
    let r := env.conn_read f s.conn.sockdata buf len s.world
    let s1 : State W :=
      { s with
        world := r.2.2
        trace := s.trace ++ [Event.conn_read f s.conn buf len r.1 r.2.1] }
    some (r.1, r.2.1, s1)

/-- The call `(sasldata->write) (conn, buf, len)`. -/
def call_write {W : Type} (env : Env W) (m : Method) (buf : List Byte) (len : Nat)
    (s : State W) : Option (Int × State W) :=
  match m with
  | Method.sasl => none
  | Method.native f =>
    let r := env.conn_write f s.conn.sockdata buf len s.world
    let s1 : State W :=
      { s with
        world := r.2
        trace := s.trace ++ [Event.conn_write f s.conn buf len r.1] }
    some (r.1, s1)

/-- Source: `mutt_sasl_setup_conn`.  The statuses of the two `sasl_getprop`
calls are not looked at.  `conn->ssf += *sasldata->ssf` dereferences the first
out-pointer: no defined result when the query stored nothing.  The second
out-pointer is dereferenced here only inside `dprint (3, ...)`. -/
def mutt_sasl_setup_conn {W : Type} (env : Env W) (saslconn : Nat) (s : State W) :
    Option (State W) :=
  let a := s.brk
  let p1 := env.sasl_getprop saslconn SaslProp.SASL_SSF s.world
  match p1.2.1 with
  | none => none
  | some ssf =>
    let p2 := env.sasl_getprop saslconn SaslProp.SASL_MAXOUTBUF p1.2.2
    if env.dprint3 = true ∧ p2.2.1 = none then none
    else
      let sasldata : SASL_DATA :=
        { saslconn := saslconn
          ssf := ssf
          pbufsize := p2.2.1
          buf := []
          bpos := 0
          blen := 0
          sockdata := s.conn.sockdata
          msasl_open := s.conn.conn_open
          msasl_close := s.conn.conn_close
          msasl_read := s.conn.conn_read
          msasl_write := s.conn.conn_write }
      some
        { conn :=
            { ssf := uint_add s.conn.ssf ssf
              sockdata := Ptr.sasldata a
              conn_open := Method.sasl
              conn_close := Method.sasl
              conn_read := Method.sasl
              conn_write := Method.sasl }
          heap := heapSet s.heap a sasldata
          brk := a + 1
          world := p2.2.2
          trace := s.trace ++
            [Event.sasl_getprop saslconn SaslProp.SASL_SSF p1.1 p1.2.1,
             Event.sasl_getprop saslconn SaslProp.SASL_MAXOUTBUF p2.1 p2.2.1] }

/-- The state `mutt_sasl_setup_conn` leaves, when it has a defined result (the
state `s` itself otherwise). -/
def installed {W : Type} (env : Env W) (saslconn : Nat) (s : State W) : State W :=
  (mutt_sasl_setup_conn env saslconn s).getD s

/-- Source: `mutt_sasl_conn_open`. -/
def mutt_sasl_conn_open {W : Type} (env : Env W) (s : State W) : Option (Int × State W) :=
  match sasldata_of s with
  | none => none
  | some (a, sasldata) =>
    match call_open env sasldata.msasl_open (set_sockdata s sasldata.sockdata) with
    | none => none
    | some (rc, s1) => some (rc, relayer s1 a sasldata)

/-- Source: `mutt_sasl_conn_close`. -/
def mutt_sasl_conn_close {W : Type} (env : Env W) (s : State W) : Option (Int × State W) :=
  match sasldata_of s with
  | none => none
  | some (a, sasldata) =>
    let conn : CONNECTION :=
      { s.conn with
        sockdata := sasldata.sockdata
        conn_open := sasldata.msasl_open
        conn_close := sasldata.msasl_close
        conn_read := sasldata.msasl_read
        conn_write := sasldata.msasl_write }
    let s1 : State W :=
      { conn := conn
        heap := heapFree s.heap a
        brk := s.brk
        world := env.sasl_dispose sasldata.saslconn s.world
        trace := s.trace ++ [Event.sasl_dispose sasldata.saslconn] }
    call_close env conn.conn_close s1

/-- How the `do ... while` loop of a wrapper is left: by a `goto` with the
result code, or by falling out of the loop. -/
inductive LoopExit where
  | jump (rc : Int)
  | fall (rc : Int)
deriving DecidableEq, Repr

/-- Source: the loop `do { ... } while (!sasldata->blen)` of
`mutt_sasl_conn_read`, on the fields of `*sasldata`; `jump` is `goto out`.
The out-parameters `&sasldata->buf`, `&sasldata->blen` of `sasl_decode` are
taken as written on every return (before each call `blen` is 0, so a library
that leaves them alone on failure is the one that returns the empty output). -/
def read_loop {W : Type} (env : Env W) :
    Nat → SASL_DATA → List Byte → Nat → State W →
      Option (LoopExit × SASL_DATA × List Byte × State W)
  | 0, _, _, _, _ => none
  | fuel + 1, sasldata, buf, len, s =>
    match call_read env sasldata.msasl_read buf len s with
    | none => none
    | some (rc, buf1, s1) =>
      if rc ≤ 0 then some (LoopExit.jump rc, sasldata, buf1, s1)
      else
        let r := env.sasl_decode sasldata.saslconn buf1 rc.toNat s1.world
        let s2 : State W :=
          { s1 with
            world := r.2.2
            trace := s1.trace ++ [Event.sasl_decode sasldata.saslconn buf1 rc.toNat r.1 r.2.1] }
        let sasldata2 : SASL_DATA := { sasldata with buf := r.2.1, blen := r.2.1.length }
        if r.1 ≠ SASL_OK then some (LoopExit.jump r.1, sasldata2, buf1, s2)
        else if sasldata2.blen = 0 then read_loop env fuel sasldata2 buf1 len s2
        else some (LoopExit.fall r.1, sasldata2, buf1, s2)

/-- Source: `mutt_sasl_conn_read`.  Result code, the caller's buffer afterwards
and the state. -/
def mutt_sasl_conn_read {W : Type} (env : Env W) (fuel : Nat) (buf : List Byte) (len : Nat)
    (s : State W) : Option (Int × List Byte × State W) :=
  match sasldata_of s with
  | none => none
  | some (a, sasldata) =>
    if sasldata.blen > sasldata.bpos then
      let olen := if sasldata.blen - sasldata.bpos > len then len
        else sasldata.blen - sasldata.bpos
      some ((olen : Int), memcpy buf (sasldata.buf.drop sasldata.bpos) olen,
        relayer s a { sasldata with bpos := sasldata.bpos + olen })
    else
      let s0 := set_sockdata s sasldata.sockdata
      let sasldata0 : SASL_DATA :=
        { sasldata with
          buf := if env.USE_SASL2 then sasldata.buf else []
          bpos := 0
          blen := 0 }
      if sasldata0.ssf ≠ 0 then
        match read_loop env fuel sasldata0 buf len s0 with
        | none => none
        | some (LoopExit.jump rc, sasldata1, buf1, s1) =>
          some (rc, buf1, relayer s1 a sasldata1)
        | some (LoopExit.fall _, sasldata1, buf1, s1) =>
          let olen := if sasldata1.blen - sasldata1.bpos > len then len
            else sasldata1.blen - sasldata1.bpos
          some ((olen : Int), memcpy buf1 sasldata1.buf olen,
            relayer s1 a { sasldata1 with bpos := sasldata1.bpos + olen })
      else
        match call_read env sasldata0.msasl_read buf len s0 with
        | none => none
        | some (rc, buf1, s1) => some (rc, buf1, relayer s1 a sasldata0)

/-- Source: the loop `do { ... } while (len > *sasldata->pbufsize)` of
`mutt_sasl_conn_write`, for the value `pbufsize` behind `sasldata->pbufsize`;
`jump` is `goto fail`, `fall` carries the last `rc`. -/
def write_loop {W : Type} (env : Env W) :
    Nat → SASL_DATA → Nat → List Byte → Nat → State W → Option (LoopExit × State W)
  | 0, _, _, _, _, _ => none
  | fuel + 1, sasldata, pbufsize, buf, len, s =>
    let olen := if len > pbufsize then pbufsize else len
    let r := env.sasl_encode sasldata.saslconn buf olen s.world
    let pbuf := r.2.1
    let plen := pbuf.length
    let s1 : State W :=
      { s with
        world := r.2.2
        trace := s.trace ++ [Event.sasl_encode sasldata.saslconn buf olen r.1 pbuf] }
    if r.1 ≠ SASL_OK then some (LoopExit.jump r.1, s1)
    else
      match call_write env sasldata.msasl_write pbuf plen s1 with
      | none => none
      | some (rc, s2) =>
        if rc ≠ (plen : Int) then some (LoopExit.jump rc, s2)
        else if len - olen > pbufsize then
          write_loop env fuel sasldata pbufsize (buf.drop olen) (len - olen) s2
        else some (LoopExit.fall rc, s2)

/-- Source: `mutt_sasl_conn_write`.  The protected path dereferences
`sasldata->pbufsize`: no defined result when that pointer is uninitialised. -/
def mutt_sasl_conn_write {W : Type} (env : Env W) (fuel : Nat) (buf : List Byte) (len : Nat)
    (s : State W) : Option (Int × State W) :=
  match sasldata_of s with
  | none => none
  | some (a, sasldata) =>
    let s0 := set_sockdata s sasldata.sockdata
    if sasldata.ssf ≠ 0 then
      match sasldata.pbufsize with
      | none => none
      | some pbufsize =>
        match write_loop env fuel sasldata pbufsize buf len s0 with
        | none => none
        | some (LoopExit.jump _, s1) => some (-1, relayer s1 a sasldata)
        | some (LoopExit.fall rc, s1) => some (rc, relayer s1 a sasldata)
    else
      match call_write env sasldata.msasl_write buf len s0 with
      | none => none
      | some (rc, s1) => some (rc, relayer s1 a sasldata)

/-- A call made through the connection interface by the code above the layer. -/
inductive Call where
  | c_open
  | c_read (buf : List Byte) (len : Nat)
  | c_write (buf : List Byte) (len : Nat)
deriving DecidableEq, Repr

/-- What the caller gets back: the result code and, for a read, its buffer. -/
structure Reply where
  rc : Int
  buf : List Byte
deriving DecidableEq, Repr

/-- The function-slot of the connection a call goes through. -/
def Call.slot (c : Call) (conn : CONNECTION) : Method :=
  match c with
  | Call.c_open => conn.conn_open
  | Call.c_read _ _ => conn.conn_read
  | Call.c_write _ _ => conn.conn_write

/-- A call answered by the wrapper of its slot: `mutt_sasl_conn_open`,
`mutt_sasl_conn_read` or `mutt_sasl_conn_write`. -/
def layered_call {W : Type} (env : Env W) (fuel : Nat) (c : Call) (s : State W) :
    Option (Reply × State W) :=
  match c with
  | Call.c_open => (mutt_sasl_conn_open env s).map (fun r => (Reply.mk r.1 [], r.2))
  | Call.c_read buf len =>
    (mutt_sasl_conn_read env fuel buf len s).map (fun r => (Reply.mk r.1 r.2.1, r.2.2))
  | Call.c_write buf len =>
    (mutt_sasl_conn_write env fuel buf len s).map (fun r => (Reply.mk r.1 [], r.2))

/-- A call answered by the function `m` itself, on the connection as it is. -/
def direct_call {W : Type} (env : Env W) (m : Method) (c : Call) (s : State W) :
    Option (Reply × State W) :=
  match c with
  | Call.c_open => (call_open env m s).map (fun r => (Reply.mk r.1 [], r.2))
  | Call.c_read buf len => (call_read env m buf len s).map (fun r => (Reply.mk r.1 r.2.1, r.2.2))
  | Call.c_write buf len => (call_write env m buf len s).map (fun r => (Reply.mk r.1 [], r.2))

/-- The dispatch `conn->open (conn)`, `conn->read (conn, buf, len)`,
`conn->write (conn, buf, len)` through the function-slots of the connection. -/
def conn_call {W : Type} (env : Env W) (fuel : Nat) (c : Call) (s : State W) :
    Option (Reply × State W) :=
  match c.slot s.conn with
  | Method.sasl => layered_call env fuel c s
  | Method.native f => direct_call env (Method.native f) c s

/-- A sequence of calls through the connection interface, in order. -/
def conn_run {W : Type} (env : Env W) (fuel : Nat) :
    List Call → State W → Option (List Reply × State W)
  | [], s => some ([], s)
  | c :: cs, s =>
    match conn_call env fuel c s with
    | none => none
    | some (r, s1) =>
      match conn_run env fuel cs s1 with
      | none => none
      | some (rs, s2) => some (r :: rs, s2)

/-- The connection a transport function was called on, for the events that are
calls of transport functions. -/
def Event.seen : Event → Option CONNECTION
  | Event.conn_open _ conn _ => some conn
  | Event.conn_close _ conn _ => some conn
  | Event.conn_read _ conn _ _ _ _ => some conn
  | Event.conn_write _ conn _ _ _ => some conn
  | _ => none

/-- The plaintext handed to `sasl_encode` by an event (the first `inputlen`
bytes at the input pointer), for the events that are encode calls. -/
def Event.plain : Event → Option (List Byte)
  | Event.sasl_encode _ input inputlen _ _ => some (input.take inputlen)
  | _ => none

/-- The plaintext chunks handed to `sasl_encode`, in call order. -/
def encode_inputs (tr : List Event) : List (List Byte) :=
  tr.filterMap Event.plain

/-- The output of a `sasl_decode` call. -/
def Event.decoded : Event → List Byte
  | Event.sasl_decode _ _ _ _ output => output
  | _ => []

/-- All bytes produced by the `sasl_decode` calls of a trace, in call order. -/
def decoded_bytes (tr : List Event) : List Byte :=
  (tr.map Event.decoded).flatten

/-- Whether the event is anything but a failed `sasl_decode`. -/
def Event.decode_ok : Event → Bool
  | Event.sasl_decode _ _ _ rc _ => rc == SASL_OK
  | _ => true

/-- Whether the event is a call of the transport read function. -/
def Event.is_read : Event → Bool
  | Event.conn_read _ _ _ _ _ _ => true
  | _ => false

/-- Whether the event is a call of the transport write function. -/
def Event.is_write : Event → Bool
  | Event.conn_write _ _ _ _ _ => true
  | _ => false

/-- Whether the event is a `sasl_encode` call. -/
def Event.is_encode : Event → Bool
  | Event.sasl_encode _ _ _ _ _ => true
  | _ => false

/-- Whether the event is a `sasl_decode` call. -/
def Event.is_decode : Event → Bool
  | Event.sasl_decode _ _ _ _ _ => true
  | _ => false

/-- Whether the event is a failure of the write path: a `sasl_encode` call with
a non-success status, or a transport write whose result is not the length it
was asked to write. -/
def Event.write_failed : Event → Bool
  | Event.sasl_encode _ _ _ rc _ => rc != SASL_OK
  | Event.conn_write _ _ _ len rc => rc != (len : Int)
  | _ => false

/-- The connection with the data-slot and the four function-slots saved in the
Layer State `d` put back, as `mutt_sasl_conn_close` restores them: the
connection had the layer not been installed. -/
def unlayered_conn (conn : CONNECTION) (d : SASL_DATA) : CONNECTION :=
  { conn with
    sockdata := d.sockdata
    conn_open := d.msasl_open
    conn_close := d.msasl_close
    conn_read := d.msasl_read
    conn_write := d.msasl_write }

/-- The event with the connection it records replaced by `g` of it. -/
def Event.map_conn (g : CONNECTION → CONNECTION) : Event → Event
  | Event.conn_open f conn rc => Event.conn_open f (g conn) rc
  | Event.conn_close f conn rc => Event.conn_close f (g conn) rc
  | Event.conn_read f conn buf len rc filled => Event.conn_read f (g conn) buf len rc filled
  | Event.conn_write f conn buf len rc => Event.conn_write f (g conn) buf len rc
  | e => e

/-- The decoded bytes of a Layer State not yet delivered to the caller. -/
def pending (d : SASL_DATA) : List Byte :=
  (d.buf.drop d.bpos).take (d.blen - d.bpos)

/-- The part of a Layer State that is not the pending buffer: the security
context, the negotiated values and the saved data-slot and function-slots. -/
def SASL_DATA.fixed (d : SASL_DATA) : SASL_DATA :=
  { d with buf := [], blen := 0, bpos := 0 }

/-- The bytes a read that returned `rc` handed to its caller: the first `rc`
bytes of the caller's buffer (none for `rc <= 0`). -/
def delivered (rc : Int) (buf : List Byte) : List Byte :=
  buf.take rc.toNat

/-- The state `s1` comes from `s` by the collaborator calls `evs` and nothing
else: connection and heap are those of `s`, the trace has grown by `evs`, and
each transport function among them was called on the connection of `s`. -/
def Calls {W : Type} (s s1 : State W) (evs : List Event) : Prop :=
  s1.conn = s.conn ∧ s1.heap = s.heap ∧ s1.brk = s.brk ∧ s1.trace = s.trace ++ evs ∧
    ∀ e ∈ evs, ∀ c, e.seen = some c → c = s.conn

/-- What a wrapper entered on the Layer State `d` at address `a` leaves behind:
the connection (data-slot and function-slots) as on entry, the Layer State at
the same address with the same fixed part, and each transport function called
on the connection of the entry with the saved data-slot in place. -/
def LayerKept {W : Type} (s s1 : State W) (a : Nat) (d : SASL_DATA) : Prop :=
  s1.conn = s.conn ∧ s1.brk = s.brk ∧
    (∃ d1, s1.heap = heapSet s.heap a d1 ∧ d1.fixed = d.fixed) ∧
    ∃ evs, s1.trace = s.trace ++ evs ∧
      ∀ e ∈ evs, ∀ c, e.seen = some c → c = { s.conn with sockdata := d.sockdata }

/-- The connection is layered on the Layer State `d` at address `a`: its
data-slot points to it and its open, read and write slots hold the wrappers. -/
def Layered {W : Type} (s : State W) (a : Nat) (d : SASL_DATA) : Prop :=
  sasldata_of s = some (a, d) ∧ s.conn.conn_open = Method.sasl ∧
    s.conn.conn_read = Method.sasl ∧ s.conn.conn_write = Method.sasl

/-- The Layer State built by `mutt_sasl_setup_conn` from the connection of `s`
(its `ssf` is the value the first query stored). -/
def fresh_sasldata {W : Type} (env : Env W) (saslconn : Nat) (s : State W) : SASL_DATA :=
  { saslconn := saslconn
    ssf := ((env.sasl_getprop saslconn SaslProp.SASL_SSF s.world).2.1).getD 0
    pbufsize := (env.sasl_getprop saslconn SaslProp.SASL_MAXOUTBUF
      (env.sasl_getprop saslconn SaslProp.SASL_SSF s.world).2.2).2.1
    buf := []
    bpos := 0
    blen := 0
    sockdata := s.conn.sockdata
    msasl_open := s.conn.conn_open
    msasl_close := s.conn.conn_close
    msasl_read := s.conn.conn_read
    msasl_write := s.conn.conn_write }

/-- The connection is layered on `d` at `a`, the layer has strength factor 0,
nothing is pending, and the saved open, read and write slots hold the transport
functions `fo`, `fr`, `fw`. -/
def PassThrough {W : Type} (s : State W) (a fo fr fw : Nat) (d : SASL_DATA) : Prop :=
  Layered s a d ∧ d.ssf = 0 ∧ d.blen ≤ d.bpos ∧ d.msasl_open = Method.native fo ∧
    d.msasl_read = Method.native fr ∧ d.msasl_write = Method.native fw

/-- The scenario of the zero-length decode loop: `n` rounds in a row in which the
transport read `f` returns a positive count and `sasl_decode` turns the chunk,
successfully, into the empty output.  The result is the caller's buffer and the
world after these rounds (`none` when one of the rounds is not of this kind). -/
def idle_rounds {W : Type} (env : Env W) (f : Nat) (sockdata : Ptr) (saslconn len : Nat) :
    Nat → List Byte → W → Option (List Byte × W)
  | 0, buf, w => some (buf, w)
  | n + 1, buf, w =>
    let r := env.conn_read f sockdata buf len w
    let dcd := env.sasl_decode saslconn r.2.1 r.1.toNat r.2.2
    if 0 < r.1 ∧ dcd.1 = SASL_OK ∧ dcd.2.1 = [] then
      idle_rounds env f sockdata saslconn len n r.2.1 dcd.2.2
    else none

/-- The number of transport reads in a list of events. -/
def count_reads (evs : List Event) : Nat :=
  (evs.filter Event.is_read).length

/-- The number of `sasl_decode` calls in a list of events. -/
def count_decodes (evs : List Event) : Nat :=
  (evs.filter Event.is_decode).length

/-- What one layered read of a run handed over: its result code, the bytes
delivered to the caller and the decoded bytes still pending after the call. -/
structure ReadOut where
  rc : Int
  bytes : List Byte
  left : List Byte
deriving DecidableEq, Repr

/-- The decoded bytes pending in the Layer State of the connection. -/
def pending_of {W : Type} (s : State W) : List Byte :=
  match sasldata_of s with
  | some (_, d) => pending d
  | none => []

/-- Successive layered reads, each with its own buffer and requested length. -/
def read_run {W : Type} (env : Env W) (fuel : Nat) :
    List (List Byte × Nat) → State W → Option (List ReadOut × State W)
  | [], s => some ([], s)
  | (buf, len) :: rest, s =>
    match mutt_sasl_conn_read env fuel buf len s with
    | none => none
    | some (rc, buf1, s1) =>
      match read_run env fuel rest s1 with
      | none => none
      | some (outs, s2) => some (ReadOut.mk rc (delivered rc buf1) (pending_of s1) :: outs, s2)

/-- Parameters of the mock collaborators: the largest number of bytes the
transport writes in one call, the negotiated values, the status of
`sasl_getprop` and the status `sasl_decode` gives for a malformed frame. -/
structure Mock where
  cap : Nat
  ssf : Nat
  pbufsize : Nat
  getprop_rc : Int
  bad : Int

/-- The world of the mock collaborators: the bytes on the wire and the bytes
the decoder has taken in without completing a frame. -/
structure Wire where
  stream : List Byte
  acc : List Byte
deriving DecidableEq, Repr

/-- Mock collaborators in the manner of the end-to-end scenario of the spec.
The transport is a byte stream: write appends at most `cap` bytes, read takes
at most `len` bytes from the front (0 at end of stream).  `sasl_encode`
prefixes the 4-byte length of the payload (it refuses a payload starting with
the byte 255); `sasl_decode` collects input until a frame is complete and then
gives its payload, gives the empty output while the frame is incomplete, and
fails with status `bad` on a frame whose first byte is not 0. -/
def mock (m : Mock) : Env Wire where
  USE_SASL2 := true
  dprint3 := false
  conn_open := fun _ _ w => (0, w)
  conn_close := fun _ _ w => (0, w)
  conn_read := fun _ _ buf len w =>
    (((w.stream.take len).length : Int), memcpy buf w.stream (w.stream.take len).length,
      { w with stream := w.stream.drop len })
  conn_write := fun _ _ buf len w =>
    (((min len m.cap : Nat) : Int), { w with stream := w.stream ++ buf.take (min len m.cap) })
  sasl_getprop := fun _ p w =>
    match p with
    | SaslProp.SASL_SSF => (m.getprop_rc, some m.ssf, w)
    | SaslProp.SASL_MAXOUTBUF => (m.getprop_rc, some m.pbufsize, w)
  sasl_encode := fun _ input inputlen w =>
    if (input.take inputlen).head? = some 255 then (-1, [], w)
    else (SASL_OK, [0, 0, 0, inputlen] ++ input.take inputlen, w)
  sasl_decode := fun _ input inputlen w =>
    let acc := w.acc ++ input.take inputlen
    if acc.head? ≠ some 0 then (m.bad, [], { w with acc := [] })
    else if acc.length < 4 + acc.getD 3 0 then (SASL_OK, [], { w with acc := acc })
    else (SASL_OK, (acc.drop 4).take (acc.getD 3 0),
      { w with acc := acc.drop (4 + acc.getD 3 0) })
  sasl_dispose := fun _ w => w

/-- An unlayered connection over the mock transport: data-slot `foreign 7`,
transport functions at addresses 1 to 4, nothing allocated, the given bytes on
the wire. -/
def mock_state (stream : List Byte) : State Wire where
  conn :=
    { ssf := 0
      sockdata := Ptr.foreign 7
      conn_open := Method.native 1
      conn_close := Method.native 2
      conn_read := Method.native 3
      conn_write := Method.native 4 }
  heap := fun _ => none
  brk := 0
  world := { stream := stream, acc := [] }
  trace := []

/-- The scenario of the spec: strength factor 56, max buffer size 4096; the
transport writes up to 100 bytes at once; a malformed frame makes `sasl_decode`
fail with the status -9 (`SASL_BADMAC`). -/
def mock_4096 : Mock :=
  { cap := 100, ssf := 56, pbufsize := 4096, getprop_rc := 0, bad := -9 }

/-- The same with max buffer size 4. -/
def mock_4 : Mock :=
  { cap := 100, ssf := 56, pbufsize := 4, getprop_rc := 0, bad := -9 }

/-- The mock collaborators with a security context whose query for the
strength factor fails with `SASL_BADPARAM` (-7) and stores nothing. -/
def mock_no_ssf (m : Mock) : Env Wire :=
  { mock m with
    sasl_getprop := fun _ p w =>
      match p with
      | SaslProp.SASL_SSF => (-7, none, w)
      | SaslProp.SASL_MAXOUTBUF => (SASL_OK, some m.pbufsize, w) }

/-- The mock collaborators with a security context whose query for the max
buffer size fails with `SASL_BADPARAM` (-7) and stores nothing. -/
def mock_no_maxoutbuf (m : Mock) : Env Wire :=
  { mock m with
    sasl_getprop := fun _ p w =>
      match p with
      | SaslProp.SASL_SSF => (SASL_OK, some m.ssf, w)
      | SaslProp.SASL_MAXOUTBUF => (-7, none, w) }

/-- A security context that negotiated no protection: strength factor 0. -/
def mock_0 : Mock :=
  { cap := 100, ssf := 0, pbufsize := 4096, getprop_rc := 0, bad := -9 }

/-- Max buffer size 4 over a transport that writes at most 6 bytes at once. -/
def mock_short : Mock :=
  { cap := 6, ssf := 56, pbufsize := 4, getprop_rc := 0, bad := -9 }

/-- The mock collaborators with a transport close that fails with -1. -/
def mock_failing_close (m : Mock) : Env Wire :=
  { mock m with conn_close := fun _ _ w => (-1, w) }

/-- The mock connection whose cumulative strength factor is already 128 (as
left by a transport-level security layer). -/
def mock_state_128 (stream : List Byte) : State Wire :=
  { mock_state stream with conn := { (mock_state stream).conn with ssf := 128 } }

/-- The bytes of "HELLO WORLD". -/
def hello_world : List Byte := [72, 69, 76, 76, 79, 32, 87, 79, 82, 76, 68]

/-! ## The collaborator calls -/

section calls
variable {W : Type}

theorem sasldata_of_relayer (s : State W) (a : Nat) (d : SASL_DATA) :
    sasldata_of (relayer s a d) = some (a, d) := by
  simp [sasldata_of, relayer, heapSet]

theorem sasldata_of_some {s : State W} {a : Nat} {d : SASL_DATA}
    (h : sasldata_of s = some (a, d)) :
    s.conn.sockdata = Ptr.sasldata a ∧ s.heap a = some d := by
  unfold sasldata_of at h
  split at h
  · simp at h
  · rename_i a' hp
    split at h
    · simp at h
    · rename_i d' hd
      simp only [Option.some.injEq, Prod.mk.injEq] at h
      obtain ⟨rfl, rfl⟩ := h
      exact ⟨hp, hd⟩

theorem sasldata_of_intro {s : State W} {a : Nat} {d : SASL_DATA}
    (hp : s.conn.sockdata = Ptr.sasldata a) (hd : s.heap a = some d) :
    sasldata_of s = some (a, d) := by
  simp [sasldata_of, hp, hd]

theorem call_open_some {env : Env W} {m : Method} {s s1 : State W} {rc : Int}
    (h : call_open env m s = some (rc, s1)) :
    ∃ f, m = Method.native f ∧ rc = (env.conn_open f s.conn.sockdata s.world).1 ∧
      s1 = { s with world := (env.conn_open f s.conn.sockdata s.world).2,
                    trace := s.trace ++ [Event.conn_open f s.conn rc] } := by
  cases m with
  | sasl => simp [call_open] at h
  | native f =>
    simp only [call_open, Option.some.injEq, Prod.mk.injEq] at h
    obtain ⟨rfl, rfl⟩ := h
    exact ⟨f, rfl, rfl, rfl⟩

theorem call_close_some {env : Env W} {m : Method} {s s1 : State W} {rc : Int}
    (h : call_close env m s = some (rc, s1)) :
    ∃ f, m = Method.native f ∧ rc = (env.conn_close f s.conn.sockdata s.world).1 ∧
      s1 = { s with world := (env.conn_close f s.conn.sockdata s.world).2,
                    trace := s.trace ++ [Event.conn_close f s.conn rc] } := by
  cases m with
  | sasl => simp [call_close] at h
  | native f =>
    simp only [call_close, Option.some.injEq, Prod.mk.injEq] at h
    obtain ⟨rfl, rfl⟩ := h
    exact ⟨f, rfl, rfl, rfl⟩

theorem call_read_some {env : Env W} {m : Method} {buf buf1 : List Byte} {len : Nat}
    {s s1 : State W} {rc : Int}
    (h : call_read env m buf len s = some (rc, buf1, s1)) :
    ∃ f, m = Method.native f ∧ rc = (env.conn_read f s.conn.sockdata buf len s.world).1 ∧
      buf1 = (env.conn_read f s.conn.sockdata buf len s.world).2.1 ∧
      s1 = { s with world := (env.conn_read f s.conn.sockdata buf len s.world).2.2,
                    trace := s.trace ++ [Event.conn_read f s.conn buf len rc buf1] } := by
  cases m with
  | sasl => simp [call_read] at h
  | native f =>
    simp only [call_read, Option.some.injEq, Prod.mk.injEq] at h
    obtain ⟨rfl, rfl, rfl⟩ := h
    exact ⟨f, rfl, rfl, rfl, rfl⟩

theorem call_write_some {env : Env W} {m : Method} {buf : List Byte} {len : Nat}
    {s s1 : State W} {rc : Int}
    (h : call_write env m buf len s = some (rc, s1)) :
    ∃ f, m = Method.native f ∧ rc = (env.conn_write f s.conn.sockdata buf len s.world).1 ∧
      s1 = { s with world := (env.conn_write f s.conn.sockdata buf len s.world).2,
                    trace := s.trace ++ [Event.conn_write f s.conn buf len rc] } := by
  cases m with
  | sasl => simp [call_write] at h
  | native f =>
    simp only [call_write, Option.some.injEq, Prod.mk.injEq] at h
    obtain ⟨rfl, rfl⟩ := h
    exact ⟨f, rfl, rfl, rfl⟩

end calls

/-! ## Frame of the wrappers -/

section frame
variable {W : Type}

theorem Calls.refl (s : State W) : Calls s s [] := by
  simp [Calls]

theorem Calls.trans {s s1 s2 : State W} {e1 e2 : List Event}
    (h1 : Calls s s1 e1) (h2 : Calls s1 s2 e2) : Calls s s2 (e1 ++ e2) := by
  obtain ⟨c1, hp1, b1, t1, v1⟩ := h1
  obtain ⟨c2, hp2, b2, t2, v2⟩ := h2
  refine ⟨c2.trans c1, hp2.trans hp1, b2.trans b1, ?_, ?_⟩
  · rw [t2, t1, List.append_assoc]
  · intro e he c hc
    rcases List.mem_append.1 he with h | h
    · exact v1 e h c hc
    · rw [← c1]; exact v2 e h c hc

theorem Calls.sasl {s : State W} {w : W} {e : Event} (he : e.seen = none) :
    Calls s { s with world := w, trace := s.trace ++ [e] } [e] := by
  refine ⟨rfl, rfl, rfl, rfl, ?_⟩
  intro e1 h1 c hc
  rw [List.mem_singleton] at h1
  subst h1
  rw [he] at hc
  cases hc

theorem Calls.decode (s : State W) (w : W) (sc : Nat) (inp : List Byte) (n : Nat) (rc : Int)
    (out : List Byte) :
    Calls s { s with world := w, trace := s.trace ++ [Event.sasl_decode sc inp n rc out] }
      [Event.sasl_decode sc inp n rc out] :=
  Calls.sasl rfl

theorem Calls.encode (s : State W) (w : W) (sc : Nat) (inp : List Byte) (n : Nat) (rc : Int)
    (out : List Byte) :
    Calls s { s with world := w, trace := s.trace ++ [Event.sasl_encode sc inp n rc out] }
      [Event.sasl_encode sc inp n rc out] :=
  Calls.sasl rfl

theorem call_open_calls {env : Env W} {m : Method} {s s1 : State W} {rc : Int}
    (h : call_open env m s = some (rc, s1)) : ∃ evs, Calls s s1 evs := by
  obtain ⟨f, -, -, rfl⟩ := call_open_some h
  refine ⟨_, rfl, rfl, rfl, rfl, ?_⟩
  intro e he c hc
  rw [List.mem_singleton] at he
  subst he
  simpa [Event.seen] using hc.symm

theorem call_read_calls {env : Env W} {m : Method} {buf buf1 : List Byte} {len : Nat}
    {s s1 : State W} {rc : Int}
    (h : call_read env m buf len s = some (rc, buf1, s1)) : ∃ evs, Calls s s1 evs := by
  obtain ⟨f, -, -, -, rfl⟩ := call_read_some h
  refine ⟨_, rfl, rfl, rfl, rfl, ?_⟩
  intro e he c hc
  rw [List.mem_singleton] at he
  subst he
  simpa [Event.seen] using hc.symm

theorem call_write_calls {env : Env W} {m : Method} {buf : List Byte} {len : Nat}
    {s s1 : State W} {rc : Int}
    (h : call_write env m buf len s = some (rc, s1)) : ∃ evs, Calls s s1 evs := by
  obtain ⟨f, -, -, rfl⟩ := call_write_some h
  refine ⟨_, rfl, rfl, rfl, rfl, ?_⟩
  intro e he c hc
  rw [List.mem_singleton] at he
  subst he
  simpa [Event.seen] using hc.symm

theorem read_loop_calls (env : Env W) (len : Nat) :
    ∀ (fuel : Nat) (d : SASL_DATA) (buf : List Byte) (s : State W)
      (ex : LoopExit) (d1 : SASL_DATA) (buf1 : List Byte) (s1 : State W),
      read_loop env fuel d buf len s = some (ex, d1, buf1, s1) →
      d1.fixed = d.fixed ∧ d1.bpos = d.bpos ∧ ∃ evs, Calls s s1 evs := by
  intro fuel
  induction fuel with
  | zero => intro d buf s ex d1 buf1 s1 h; simp [read_loop] at h
  | succ n ih =>
    intro d buf s ex d1 buf1 s1 h
    rw [read_loop] at h
    cases hc : call_read env d.msasl_read buf len s with
    | none => rw [hc] at h; simp at h
    | some r =>
      obtain ⟨rc, b, s0⟩ := r
      obtain ⟨e0, hc0⟩ := call_read_calls hc
      rw [hc] at h
      simp only at h
      split at h
      · simp only [Option.some.injEq, Prod.mk.injEq] at h
        obtain ⟨-, rfl, -, rfl⟩ := h
        exact ⟨rfl, rfl, e0, hc0⟩
      · split at h
        · simp only [Option.some.injEq, Prod.mk.injEq] at h
          obtain ⟨-, rfl, -, rfl⟩ := h
          exact ⟨rfl, rfl, _, hc0.trans (Calls.sasl rfl)⟩
        · split at h
          · obtain ⟨hf, hb, e2, hc2⟩ := ih _ _ _ _ _ _ _ h
            exact ⟨hf, hb, _, (hc0.trans (Calls.decode _ _ _ _ _ _ _)).trans hc2⟩
          · simp only [Option.some.injEq, Prod.mk.injEq] at h
            obtain ⟨-, rfl, -, rfl⟩ := h
            exact ⟨rfl, rfl, _, hc0.trans (Calls.sasl rfl)⟩

theorem write_loop_calls (env : Env W) (d : SASL_DATA) (M : Nat) :
    ∀ (fuel : Nat) (buf : List Byte) (len : Nat) (s : State W) (ex : LoopExit) (s1 : State W),
      write_loop env fuel d M buf len s = some (ex, s1) → ∃ evs, Calls s s1 evs := by
  intro fuel
  induction fuel with
  | zero => intro buf len s ex s1 h; simp [write_loop] at h
  | succ n ih =>
    intro buf len s ex s1 h
    rw [write_loop] at h
    generalize (if len > M then M else len) = olen at h
    split at h
    · simp only [Option.some.injEq, Prod.mk.injEq] at h
      obtain ⟨-, rfl⟩ := h
      exact ⟨_, Calls.encode _ _ _ _ _ _ _⟩
    · split at h
      · simp at h
      · rename_i rc s2 hw
        obtain ⟨e2, hc2⟩ := call_write_calls hw
        have h12 := (Calls.encode _ _ _ _ _ _ _).trans hc2
        split at h
        · simp only [Option.some.injEq, Prod.mk.injEq] at h
          obtain ⟨-, rfl⟩ := h
          exact ⟨_, h12⟩
        · split at h
          · obtain ⟨e3, hc3⟩ := ih _ _ _ _ _ h
            exact ⟨_, h12.trans hc3⟩
          · simp only [Option.some.injEq, Prod.mk.injEq] at h
            obtain ⟨-, rfl⟩ := h
            exact ⟨_, h12⟩

end frame

section kept
variable {W : Type}

theorem relayer_kept {s s1 : State W} {a : Nat} {d d1 : SASL_DATA} {evs : List Event}
    (hs : sasldata_of s = some (a, d))
    (hc : Calls (set_sockdata s d.sockdata) s1 evs) (hd : d1.fixed = d.fixed) :
    LayerKept s (relayer s1 a d1) a d := by
  obtain ⟨hp, -⟩ := sasldata_of_some hs
  obtain ⟨c1, h1, b1, t1, v1⟩ := hc
  refine ⟨?_, b1, ⟨d1, ?_, hd⟩, evs, t1, v1⟩
  · simp only [relayer, c1, set_sockdata]
    rw [← hp]
  · simp only [relayer, h1, set_sockdata]

theorem open_kept {env : Env W} {s s1 : State W} {a : Nat} {d : SASL_DATA} {rc : Int}
    (hs : sasldata_of s = some (a, d)) (h : mutt_sasl_conn_open env s = some (rc, s1)) :
    LayerKept s s1 a d := by
  unfold mutt_sasl_conn_open at h
  rw [hs] at h
  simp only at h
  split at h
  · simp at h
  · rename_i rc0 s0 ho
    simp only [Option.some.injEq, Prod.mk.injEq] at h
    obtain ⟨-, rfl⟩ := h
    obtain ⟨evs, hc⟩ := call_open_calls ho
    exact relayer_kept hs hc rfl

theorem pending_kept {s : State W} {a : Nat} {d d1 : SASL_DATA}
    (hs : sasldata_of s = some (a, d)) (hd : d1.fixed = d.fixed) :
    LayerKept s (relayer s a d1) a d := by
  obtain ⟨hp, -⟩ := sasldata_of_some hs
  refine ⟨?_, rfl, ⟨d1, rfl, hd⟩, [], by simp [relayer], by simp⟩
  simp only [relayer]
  rw [← hp]

theorem read_kept {env : Env W} {fuel : Nat} {buf buf1 : List Byte} {len : Nat}
    {s s1 : State W} {a : Nat} {d : SASL_DATA} {rc : Int}
    (hs : sasldata_of s = some (a, d))
    (h : mutt_sasl_conn_read env fuel buf len s = some (rc, buf1, s1)) :
    LayerKept s s1 a d := by
  unfold mutt_sasl_conn_read at h
  rw [hs] at h
  simp only at h
  split at h
  · simp only [Option.some.injEq, Prod.mk.injEq] at h
    obtain ⟨-, -, rfl⟩ := h
    exact pending_kept hs rfl
  · split at h
    · split at h
      · simp at h
      · rename_i rc0 d0 b0 s0 hl
        simp only [Option.some.injEq, Prod.mk.injEq] at h
        obtain ⟨-, -, rfl⟩ := h
        obtain ⟨hf, -, evs, hc⟩ := read_loop_calls env len _ _ _ _ _ _ _ _ hl
        exact relayer_kept hs hc hf
      · rename_i rc0 d0 b0 s0 hl
        simp only [Option.some.injEq, Prod.mk.injEq] at h
        obtain ⟨-, -, rfl⟩ := h
        obtain ⟨hf, -, evs, hc⟩ := read_loop_calls env len _ _ _ _ _ _ _ _ hl
        exact relayer_kept hs hc hf
    · split at h
      · simp at h
      · rename_i rc0 b0 s0 hr
        simp only [Option.some.injEq, Prod.mk.injEq] at h
        obtain ⟨-, -, rfl⟩ := h
        obtain ⟨evs, hc⟩ := call_read_calls hr
        exact relayer_kept hs hc rfl

theorem write_kept {env : Env W} {fuel : Nat} {buf : List Byte} {len : Nat}
    {s s1 : State W} {a : Nat} {d : SASL_DATA} {rc : Int}
    (hs : sasldata_of s = some (a, d))
    (h : mutt_sasl_conn_write env fuel buf len s = some (rc, s1)) :
    LayerKept s s1 a d := by
  unfold mutt_sasl_conn_write at h
  rw [hs] at h
  simp only at h
  split at h
  · split at h
    · simp at h
    · split at h
      · simp at h
      · rename_i rc0 s0 hl
        simp only [Option.some.injEq, Prod.mk.injEq] at h
        obtain ⟨-, rfl⟩ := h
        obtain ⟨evs, hc⟩ := write_loop_calls env _ _ _ _ _ _ _ _ hl
        exact relayer_kept hs hc rfl
      · rename_i rc0 s0 hl
        simp only [Option.some.injEq, Prod.mk.injEq] at h
        obtain ⟨-, rfl⟩ := h
        obtain ⟨evs, hc⟩ := write_loop_calls env _ _ _ _ _ _ _ _ hl
        exact relayer_kept hs hc rfl
  · split at h
    · simp at h
    · rename_i rc0 s0 hw
      simp only [Option.some.injEq, Prod.mk.injEq] at h
      obtain ⟨-, rfl⟩ := h
      obtain ⟨evs, hc⟩ := call_write_calls hw
      exact relayer_kept hs hc rfl

theorem LayerKept.sasldata_of {s s1 : State W} {a : Nat} {d : SASL_DATA}
    (hs : sasldata_of s = some (a, d)) (h : LayerKept s s1 a d) :
    ∃ d1, MuttSasl.sasldata_of s1 = some (a, d1) ∧ d1.fixed = d.fixed := by
  obtain ⟨hp, -⟩ := sasldata_of_some hs
  obtain ⟨hc, -, ⟨d1, hh, hf⟩, -⟩ := h
  refine ⟨d1, sasldata_of_intro (by rw [hc, hp]) ?_, hf⟩
  simp [hh, heapSet]

end kept

section run
variable {W : Type}

theorem layered_call_kept {env : Env W} {fuel : Nat} {c : Call} {s s1 : State W} {a : Nat}
    {d : SASL_DATA} {r : Reply}
    (hs : sasldata_of s = some (a, d)) (h : layered_call env fuel c s = some (r, s1)) :
    LayerKept s s1 a d := by
  cases c with
  | c_open =>
    simp only [layered_call, Option.map_eq_some', Prod.mk.injEq] at h
    obtain ⟨⟨rc, s0⟩, h0, -, rfl⟩ := h
    exact open_kept hs h0
  | c_read buf len =>
    simp only [layered_call, Option.map_eq_some', Prod.mk.injEq] at h
    obtain ⟨⟨rc, b, s0⟩, h0, -, rfl⟩ := h
    exact read_kept hs h0
  | c_write buf len =>
    simp only [layered_call, Option.map_eq_some', Prod.mk.injEq] at h
    obtain ⟨⟨rc, s0⟩, h0, -, rfl⟩ := h
    exact write_kept hs h0

theorem conn_call_layered {env : Env W} {fuel : Nat} {c : Call} {s : State W} {a : Nat}
    {d : SASL_DATA} (hl : Layered s a d) :
    conn_call env fuel c s = layered_call env fuel c s := by
  obtain ⟨-, ho, hr, hw⟩ := hl
  cases c <;> simp [conn_call, Call.slot, ho, hr, hw]

theorem Layered.step {s s1 : State W} {a : Nat} {d : SASL_DATA}
    (hl : Layered s a d) (hk : LayerKept s s1 a d) :
    ∃ d1, Layered s1 a d1 ∧ d1.fixed = d.fixed ∧ s1.conn = s.conn := by
  obtain ⟨d1, h1, hf⟩ := hk.sasldata_of hl.1
  obtain ⟨hc, -⟩ := hk
  obtain ⟨-, ho, hr, hw⟩ := hl
  exact ⟨d1, ⟨h1, by rw [hc, ho], by rw [hc, hr], by rw [hc, hw]⟩, hf, hc⟩

theorem conn_run_layered (env : Env W) (fuel : Nat) :
    ∀ (calls : List Call) (s s1 : State W) (a : Nat) (d : SASL_DATA) (rs : List Reply),
      Layered s a d → conn_run env fuel calls s = some (rs, s1) →
      ∃ d1, Layered s1 a d1 ∧ d1.fixed = d.fixed ∧ s1.conn = s.conn := by
  intro calls
  induction calls with
  | nil =>
    intro s s1 a d rs hl h
    simp only [conn_run, Option.some.injEq, Prod.mk.injEq] at h
    obtain ⟨-, rfl⟩ := h
    exact ⟨d, hl, rfl, rfl⟩
  | cons c cs ih =>
    intro s s1 a d rs hl h
    rw [conn_run] at h
    split at h
    · simp at h
    · rename_i r s0 hc
      split at h
      · simp at h
      · rename_i rs0 s2 hrun
        simp only [Option.some.injEq, Prod.mk.injEq] at h
        obtain ⟨-, rfl⟩ := h
        rw [conn_call_layered hl] at hc
        obtain ⟨d0, hl0, hf0, hc0⟩ := hl.step (layered_call_kept hl.1 hc)
        obtain ⟨d1, hl1, hf1, hc1⟩ := ih _ _ _ _ _ hl0 hrun
        exact ⟨d1, hl1, hf1.trans hf0, hc1.trans hc0⟩

theorem setup_conn_some {env : Env W} {saslconn : Nat} {s s0 : State W}
    (h : mutt_sasl_setup_conn env saslconn s = some s0) :
    ∃ ssf, (env.sasl_getprop saslconn SaslProp.SASL_SSF s.world).2.1 = some ssf ∧
      s0.conn =
        { ssf := uint_add s.conn.ssf ssf
          sockdata := Ptr.sasldata s.brk
          conn_open := Method.sasl
          conn_close := Method.sasl
          conn_read := Method.sasl
          conn_write := Method.sasl } ∧
      s0.heap = heapSet s.heap s.brk (fresh_sasldata env saslconn s) ∧
      s0.world = (env.sasl_getprop saslconn SaslProp.SASL_MAXOUTBUF
        (env.sasl_getprop saslconn SaslProp.SASL_SSF s.world).2.2).2.2 := by
  unfold mutt_sasl_setup_conn at h
  simp only at h
  split at h
  · simp at h
  · rename_i ssf hssf
    split at h
    · simp at h
    · simp only [Option.some.injEq] at h
      subst h
      refine ⟨ssf, hssf, rfl, ?_, rfl⟩
      simp only [fresh_sasldata, hssf, Option.getD_some]

theorem setup_conn_layered {env : Env W} {saslconn : Nat} {s s0 : State W}
    (h : mutt_sasl_setup_conn env saslconn s = some s0) :
    Layered s0 s.brk (fresh_sasldata env saslconn s) := by
  obtain ⟨ssf, -, hc, hh, -⟩ := setup_conn_some h
  refine ⟨?_, ?_, ?_, ?_⟩
  · simp [sasldata_of, hc, hh, heapSet]
  · rw [hc]
  · rw [hc]
  · rw [hc]

theorem close_restores {env : Env W} {s : State W} {a f : Nat} {d : SASL_DATA}
    (hs : sasldata_of s = some (a, d)) (hf : d.msasl_close = Method.native f) :
    ∃ rc s1, mutt_sasl_conn_close env s = some (rc, s1) ∧
      s1.conn = { s.conn with
        sockdata := d.sockdata
        conn_open := d.msasl_open
        conn_close := d.msasl_close
        conn_read := d.msasl_read
        conn_write := d.msasl_write } := by
  unfold mutt_sasl_conn_close
  rw [hs]
  simp only [hf, call_close]
  exact ⟨_, _, rfl, rfl⟩

end run

/-- C4 (teardown restoration): after `mutt_sasl_setup_conn` (which leaves the
state `s0`), any sequence of
calls through the layered open, read and write, and then `mutt_sasl_conn_close`,
the data-slot and the four function-slots of the connection are the ones it had
just before `mutt_sasl_setup_conn` (and the close does return). -/
theorem C4_teardown_restoration {W : Type} (env : Env W) (fuel saslconn f : Nat)
    (s s0 s1 : State W) (calls : List Call) (replies : List Reply)
    (hclose : s.conn.conn_close = Method.native f)
    (hinst : mutt_sasl_setup_conn env saslconn s = some s0)
    (hrun : conn_run env fuel calls s0 = some (replies, s1)) :
    ∃ rc s2, mutt_sasl_conn_close env s1 = some (rc, s2) ∧
      s2.conn.sockdata = s.conn.sockdata ∧
      s2.conn.conn_open = s.conn.conn_open ∧
      s2.conn.conn_close = s.conn.conn_close ∧
      s2.conn.conn_read = s.conn.conn_read ∧
      s2.conn.conn_write = s.conn.conn_write := by
  obtain ⟨d1, hl1, hf1, -⟩ :=
    conn_run_layered env fuel calls _ _ _ _ _ (setup_conn_layered hinst) hrun
  have hfix : ∀ g : SASL_DATA → Method, (∀ x, g x.fixed = g x) →
      g d1 = g (fresh_sasldata env saslconn s) := by
    intro g hg
    rw [← hg d1, hf1, hg]
  have hcl : d1.msasl_close = Method.native f := by
    rw [hfix SASL_DATA.msasl_close (fun _ => rfl)]
    exact hclose
  have hsd : d1.sockdata = s.conn.sockdata := by
    have := congrArg SASL_DATA.sockdata hf1
    exact this
  obtain ⟨rc, s2, h2, hc2⟩ := close_restores hl1.1 hcl
  refine ⟨rc, s2, h2, ?_, ?_, ?_, ?_, ?_⟩
  · rw [hc2]; exact hsd
  · rw [hc2]; exact hfix SASL_DATA.msasl_open (fun _ => rfl)
  · rw [hc2]; exact hfix SASL_DATA.msasl_close (fun _ => rfl)
  · rw [hc2]; exact hfix SASL_DATA.msasl_read (fun _ => rfl)
  · rw [hc2]; exact hfix SASL_DATA.msasl_write (fun _ => rfl)

/-- Witness of C4: on the mock transport, install, write "HELLO WORLD", read it
back in two reads of 5 and 6 bytes, close. -/
theorem C4_teardown_restoration_witness :
    ∃ replies s1,
      conn_run (mock mock_4096) 10
        [Call.c_open, Call.c_write hello_world 11, Call.c_read [0, 0, 0, 0, 0] 5,
          Call.c_read [0, 0, 0, 0, 0, 0] 6]
        (installed (mock mock_4096) 9 (mock_state [])) = some (replies, s1) ∧
      replies.map Reply.rc = [0, 15, 5, 6] ∧
      ∃ rc s2, mutt_sasl_conn_close (mock mock_4096) s1 = some (rc, s2) ∧
        s2.conn.sockdata = Ptr.foreign 7 ∧
        s2.conn.conn_open = Method.native 1 ∧
        s2.conn.conn_close = Method.native 2 ∧
        s2.conn.conn_read = Method.native 3 ∧
        s2.conn.conn_write = Method.native 4 :=
  ⟨_, _, rfl, by decide,
    C4_teardown_restoration (mock mock_4096) 10 9 2 (mock_state [])
      (installed (mock mock_4096) 9 (mock_state [])) _
      [Call.c_open, Call.c_write hello_world 11, Call.c_read [0, 0, 0, 0, 0] 5,
        Call.c_read [0, 0, 0, 0, 0, 0] 6] _ rfl rfl rfl⟩

/-- C10 (data-slot save/restore discipline): whenever the layered open, read or
write returns, by whatever exit path, the connection is as on entry (the
data-slot is the Layer State of the entry, at the same address and with the same
saved slots and security context, and the four function-slots are unchanged),
and every transport function called meanwhile was called on that connection
with the saved pre-layer data-slot in place of the Layer State. -/
theorem C10_data_slot_discipline {W : Type} (env : Env W) (fuel : Nat) (c : Call)
    (s s1 : State W) (a : Nat) (d : SASL_DATA) (r : Reply)
    (hs : sasldata_of s = some (a, d))
    (h : layered_call env fuel c s = some (r, s1)) :
    s1.conn = s.conn ∧ s1.conn.sockdata = Ptr.sasldata a ∧
      (∃ d1, sasldata_of s1 = some (a, d1) ∧ d1.fixed = d.fixed) ∧
      ∃ evs, s1.trace = s.trace ++ evs ∧
        ∀ e ∈ evs, ∀ c0, e.seen = some c0 →
          c0.sockdata = d.sockdata ∧ c0 = { s.conn with sockdata := d.sockdata } := by
  have hk := layered_call_kept hs h
  obtain ⟨hc, -, -, evs, ht, hv⟩ := id hk
  refine ⟨hc, ?_, hk.sasldata_of hs, evs, ht, ?_⟩
  · rw [hc]; exact (sasldata_of_some hs).1
  · intro e he c0 h0
    have := hv e he c0 h0
    exact ⟨by rw [this], this⟩

/-- Witness of C10: a layered read on the mock transport that ends by a failed
decode (the frame on the wire is malformed). -/
theorem C10_data_slot_discipline_witness :
    ∃ r s1,
      layered_call (mock mock_4096) 10 (Call.c_read [0, 0, 0, 0, 0] 5)
        (installed (mock mock_4096) 9 (mock_state [1, 0, 0, 2, 72, 73])) =
          some (r, s1) ∧
      s1.conn = (installed (mock mock_4096) 9 (mock_state [1, 0, 0, 2, 72, 73])).conn ∧
      s1.conn.sockdata = Ptr.sasldata 0 ∧
      (∃ d1, sasldata_of s1 = some (0, d1) ∧
        d1.fixed = (fresh_sasldata (mock mock_4096) 9 (mock_state [1, 0, 0, 2, 72, 73])).fixed) ∧
      ∃ evs, s1.trace =
          (installed (mock mock_4096) 9 (mock_state [1, 0, 0, 2, 72, 73])).trace ++ evs ∧
        ∀ e ∈ evs, ∀ c0, e.seen = some c0 →
          c0.sockdata = Ptr.foreign 7 ∧
          c0 = { (installed (mock mock_4096) 9
            (mock_state [1, 0, 0, 2, 72, 73])).conn with sockdata := Ptr.foreign 7 } :=
  ⟨_, _, rfl,
    C10_data_slot_discipline (mock mock_4096) 10 (Call.c_read [0, 0, 0, 0, 0] 5) _ _ 0
      (fresh_sasldata (mock mock_4096) 9 (mock_state [1, 0, 0, 2, 72, 73])) _ rfl rfl⟩

/-- C1 (write chunking) fails on the code: with max buffer size 4 and the 5-byte
input 1 2 3 4 5, every encode and every transport write succeeding in full,
`mutt_sasl_conn_write` makes one encode call (on 1 2 3 4) where ceil(5/4) = 2
are claimed, leaves the loop because the remaining length 1 is not greater than
4, and the byte 5 is neither encoded nor written to the wire.  The result 8 is
the length of the encoded chunk. -/
theorem C1_write_drops_tail :
    ((mutt_sasl_setup_conn (mock mock_4) 9 (mock_state [])).bind
        (fun s0 => mutt_sasl_conn_write (mock mock_4) 10 [1, 2, 3, 4, 5] 5 s0)).map
      (fun r => (r.1, encode_inputs r.2.trace, r.2.world.stream)) =
      some (8, [[1, 2, 3, 4]], [0, 0, 0, 4, 1, 2, 3, 4]) := by
  decide

/-- C2 (write return value) fails on the code: in the scenario of the spec
(strength factor 56, max buffer size 4096, an encode that prefixes 4 bytes),
`mutt_sasl_conn_write` of the 11 bytes of "HELLO WORLD" returns 15, the result
of the transport write of the encoded chunk, not the input length 11. -/
theorem C2_write_returns_encoded_length :
    ((mutt_sasl_setup_conn (mock mock_4096) 9 (mock_state [])).bind
        (fun s0 => mutt_sasl_conn_write (mock mock_4096) 10 hello_world 11 s0)).map
      (fun r => (r.1, r.2.world.stream.length, hello_world.length)) = some (15, 15, 11) := by
  decide

/-- C5 (setup failure aborts installation) fails on the code, which never looks
at the status of `sasl_getprop`.  (1) When the query for the max buffer size
fails with `SASL_BADPARAM` (-7) and stores nothing, after a successful query
for the strength factor 56, `mutt_sasl_setup_conn` (in a build whose
`dprint (3, ...)` does not evaluate its arguments) attaches the layer all the
same: the data-slot is the new Layer State, the four function-slots are the
wrappers and the cumulative strength factor went from 0 to 56; the Layer State
holds an uninitialised max buffer size pointer, so that the first protected
write has no defined result.  (2) When the query for the strength factor fails
and stores nothing, `mutt_sasl_setup_conn` dereferences the uninitialised
pointer `sasldata->ssf` and has no defined result, where the claim has it
return with the connection as it was. -/
theorem C5_setup_ignores_query_failure :
    ((mock_no_maxoutbuf mock_4096).sasl_getprop 9 SaslProp.SASL_MAXOUTBUF
      (mock_state []).world).1 ≠ SASL_OK ∧
    ((mock_no_maxoutbuf mock_4096).sasl_getprop 9 SaslProp.SASL_MAXOUTBUF
      (mock_state []).world).2.1 = none ∧
    (mutt_sasl_setup_conn (mock_no_maxoutbuf mock_4096) 9 (mock_state [])).map
        (fun s0 => s0.conn) =
      some { ssf := 56, sockdata := Ptr.sasldata 0, conn_open := Method.sasl,
             conn_close := Method.sasl, conn_read := Method.sasl, conn_write := Method.sasl } ∧
    (mutt_sasl_setup_conn (mock_no_maxoutbuf mock_4096) 9 (mock_state [])).map
        (fun s0 => s0.conn) ≠ some (mock_state []).conn ∧
    ((mutt_sasl_setup_conn (mock_no_maxoutbuf mock_4096) 9 (mock_state [])).bind
        (fun s0 => (sasldata_of s0).map (fun r => (r.2.ssf, r.2.pbufsize)))) =
      some (56, none) ∧
    ((mutt_sasl_setup_conn (mock_no_maxoutbuf mock_4096) 9 (mock_state [])).bind
        (fun s0 => mutt_sasl_conn_write (mock_no_maxoutbuf mock_4096) 10 hello_world 11
          s0)).isNone = true ∧
    ((mock_no_ssf mock_4096).sasl_getprop 9 SaslProp.SASL_SSF (mock_state []).world).1 ≠
      SASL_OK ∧
    ((mock_no_ssf mock_4096).sasl_getprop 9 SaslProp.SASL_SSF (mock_state []).world).2.1 =
      none ∧
    (mutt_sasl_setup_conn (mock_no_ssf mock_4096) 9 (mock_state [])).isNone = true := by
  decide

/-! ## The write path -/

section write
variable {W : Type}

theorem write_loop_shape (env : Env W) (d : SASL_DATA) (M : Nat) :
    ∀ (fuel : Nat) (buf : List Byte) (len : Nat) (s : State W) (ex : LoopExit) (s1 : State W),
      write_loop env fuel d M buf len s = some (ex, s1) →
      ∃ init last, s1.trace = s.trace ++ (init ++ [last]) ∧
        (∀ e ∈ init, e.write_failed = false) ∧
        ((∃ rc, ex = LoopExit.jump rc) ↔ last.write_failed = true) := by
  intro fuel
  induction fuel with
  | zero => intro buf len s ex s1 h; simp [write_loop] at h
  | succ n ih =>
    intro buf len s ex s1 h
    rw [write_loop] at h
    generalize (if len > M then M else len) = olen at h
    split at h
    · rename_i hrc
      simp only [Option.some.injEq, Prod.mk.injEq] at h
      obtain ⟨rfl, rfl⟩ := h
      refine ⟨[], _, rfl, by simp, ?_⟩
      simp [Event.write_failed, hrc]
    · rename_i hrc
      split at h
      · simp at h
      · rename_i rc s2 hw
        obtain ⟨f, -, -, rfl⟩ := call_write_some hw
        split at h
        · rename_i hne
          simp only [Option.some.injEq, Prod.mk.injEq] at h
          obtain ⟨rfl, rfl⟩ := h
          refine ⟨[_], _, by simp only [List.append_assoc]; rfl, ?_, ?_⟩
          · intro e he
            rw [List.mem_singleton] at he
            subst he
            simpa [Event.write_failed] using hrc
          · simp [Event.write_failed, hne]
        · rename_i heq
          split at h
          · obtain ⟨init, last, ht, hi, hl⟩ := ih _ _ _ _ _ h
            refine ⟨?e1 :: ?e2 :: init, last, ?h1, ?h2, hl⟩
            case h1 => rw [ht]; simp only [List.append_assoc]; exact rfl
            case h2 =>
              intro e he
              simp only [List.mem_cons] at he
              rcases he with rfl | rfl | he
              · simpa [Event.write_failed] using hrc
              · simpa [Event.write_failed] using heq
              · exact hi e he
          · simp only [Option.some.injEq, Prod.mk.injEq] at h
            obtain ⟨rfl, rfl⟩ := h
            refine ⟨[_], _, by simp only [List.append_assoc]; rfl, ?_, ?_⟩
            · intro e he
              rw [List.mem_singleton] at he
              subst he
              simpa [Event.write_failed] using hrc
            · simpa [Event.write_failed] using heq

theorem write_loop_total (env : Env W) (d : SASL_DATA) (M f : Nat)
    (hnat : d.msasl_write = Method.native f) (hM : 1 ≤ M) :
    ∀ (fuel : Nat) (buf : List Byte) (len : Nat) (s : State W), len < fuel →
      ∃ ex s1, write_loop env fuel d M buf len s = some (ex, s1) := by
  intro fuel
  induction fuel with
  | zero => intro buf len s h; omega
  | succ n ih =>
    intro buf len s hlen
    rw [write_loop]
    simp only [hnat, call_write]
    generalize holen : (if len > M then M else len) = olen
    split
    · exact ⟨_, _, rfl⟩
    · split
      · exact ⟨_, _, rfl⟩
      · split
        · rename_i hgt
          apply ih
          split at holen <;> omega
        · exact ⟨_, _, rfl⟩

theorem last_of_failed {init pre post : List Event} {e last : Event}
    (h : pre ++ e :: post = init ++ [last]) (hi : ∀ x ∈ init, x.write_failed = false)
    (he : e.write_failed = true) : post = [] ∧ e = last := by
  rcases List.eq_nil_or_concat post with rfl | ⟨post1, x, rfl⟩
  · have h1 : pre ++ [e] = init ++ [last] := h
    exact ⟨rfl, (List.append_inj' h1 rfl).2 |> List.singleton_inj.1⟩
  · exfalso
    have h1 : (pre ++ e :: post1) ++ [x] = init ++ [last] := by
      rw [← h]; simp
    have h2 := (List.append_inj' h1 rfl).1
    have hmem : e ∈ init := by rw [← h2]; simp
    rw [hi e hmem] at he
    cases he

end write

/-- C6 (fatal write failures): with a non-zero strength factor (and max buffer
size `M` at least 1, fuel above the input length, a transport write in the saved
slot) `mutt_sasl_conn_write` returns, and if one of the calls it made is a
failed `sasl_encode` (non-success status) or a transport write whose result
differs from the encoded length it was given, then the result is -1 and nothing
was called after that call: no further encode and no further transport write. -/
theorem C6_fatal_write_failures {W : Type} (env : Env W) (fuel : Nat) (buf : List Byte)
    (len : Nat) (s : State W) (a f M : Nat) (d : SASL_DATA)
    (hs : sasldata_of s = some (a, d)) (hssf : d.ssf ≠ 0)
    (hnat : d.msasl_write = Method.native f) (hpb : d.pbufsize = some M) (hM : 1 ≤ M)
    (hfuel : len < fuel) :
    ∃ rc s1, mutt_sasl_conn_write env fuel buf len s = some (rc, s1) ∧
      ∀ pre e post, s1.trace = s.trace ++ pre ++ e :: post → e.write_failed = true →
        rc = -1 ∧ post = [] := by
  obtain ⟨ex, s0, hl⟩ :=
    write_loop_total env d M f hnat hM fuel buf len (set_sockdata s d.sockdata) hfuel
  obtain ⟨init, last, ht, hi, hlast⟩ := write_loop_shape env d M _ _ _ _ _ _ hl
  have key : ∀ (rc : Int) (s1 : State W), s1.trace = s0.trace →
      ((∃ r, ex = LoopExit.jump r) → rc = -1) →
      ∀ pre e post, s1.trace = s.trace ++ pre ++ e :: post → e.write_failed = true →
        rc = -1 ∧ post = [] := by
    intro rc s1 h1 hj pre e post htr he
    rw [h1, ht] at htr
    have h2 : pre ++ e :: post = init ++ [last] := by
      have h3 : s.trace ++ (init ++ [last]) = s.trace ++ (pre ++ e :: post) := by
        simpa only [set_sockdata, List.append_assoc] using htr
      exact (List.append_cancel_left h3).symm
    obtain ⟨hp, hel⟩ := last_of_failed h2 hi he
    refine ⟨hj (hlast.2 ?_), hp⟩
    rw [← hel]; exact he
  unfold mutt_sasl_conn_write
  rw [hs]
  simp only [hssf, ne_eq, not_false_eq_true, if_true, hpb, hl]
  cases ex with
  | jump r => exact ⟨_, _, rfl, key _ _ rfl (fun _ => rfl)⟩
  | fall r =>
    refine ⟨_, _, rfl, key _ _ rfl ?_⟩
    rintro ⟨r1, hr1⟩
    cases hr1

/-! ## Pass-through with strength factor 0 -/

section passthrough
variable {W : Type}

theorem heapSet_self {h : Nat → Option SASL_DATA} {a : Nat} {d : SASL_DATA}
    (hd : h a = some d) : heapSet h a d = h := by
  funext x
  unfold heapSet
  split
  · rename_i hx; rw [hx, hd]
  · rfl

theorem relayer_self {s : State W} {a : Nat} {d : SASL_DATA} (hs : sasldata_of s = some (a, d))
    (w : W) (tr : List Event) :
    relayer { set_sockdata s d.sockdata with world := w, trace := tr } a d =
      { s with world := w, trace := tr } := by
  obtain ⟨hp, hd⟩ := sasldata_of_some hs
  simp only [relayer, set_sockdata, heapSet_self hd]
  rw [← hp]

theorem passthrough_write (env : Env W) (fuel : Nat) (buf : List Byte) (len : Nat)
    (s : State W) (a fw : Nat) (d : SASL_DATA)
    (hs : sasldata_of s = some (a, d)) (hssf : d.ssf = 0)
    (hw : d.msasl_write = Method.native fw) :
    mutt_sasl_conn_write env fuel buf len s =
      some ((env.conn_write fw d.sockdata buf len s.world).1,
        { s with
          world := (env.conn_write fw d.sockdata buf len s.world).2
          trace := s.trace ++ [Event.conn_write fw { s.conn with sockdata := d.sockdata } buf len
            (env.conn_write fw d.sockdata buf len s.world).1] }) := by
  unfold mutt_sasl_conn_write
  rw [hs]
  simp only [hssf, hw, call_write, ne_eq, not_true_eq_false, if_false]
  rw [← relayer_self hs]
  rfl

theorem passthrough_open (env : Env W) (s : State W) (a fo : Nat) (d : SASL_DATA)
    (hs : sasldata_of s = some (a, d)) (ho : d.msasl_open = Method.native fo) :
    mutt_sasl_conn_open env s =
      some ((env.conn_open fo d.sockdata s.world).1,
        { s with
          world := (env.conn_open fo d.sockdata s.world).2
          trace := s.trace ++ [Event.conn_open fo { s.conn with sockdata := d.sockdata }
            (env.conn_open fo d.sockdata s.world).1] }) := by
  unfold mutt_sasl_conn_open
  rw [hs]
  simp only [ho, call_open]
  rw [← relayer_self hs]
  rfl

theorem passthrough_read (env : Env W) (fuel : Nat) (buf : List Byte) (len : Nat)
    (s : State W) (a fr : Nat) (d : SASL_DATA)
    (hs : sasldata_of s = some (a, d)) (hssf : d.ssf = 0) (hpend : d.blen ≤ d.bpos)
    (hr : d.msasl_read = Method.native fr) :
    mutt_sasl_conn_read env fuel buf len s =
      some ((env.conn_read fr d.sockdata buf len s.world).1,
        (env.conn_read fr d.sockdata buf len s.world).2.1,
        relayer
          { set_sockdata s d.sockdata with
            world := (env.conn_read fr d.sockdata buf len s.world).2.2
            trace := s.trace ++ [Event.conn_read fr { s.conn with sockdata := d.sockdata } buf len
              (env.conn_read fr d.sockdata buf len s.world).1
              (env.conn_read fr d.sockdata buf len s.world).2.1] }
          a { d with buf := if env.USE_SASL2 then d.buf else [], bpos := 0, blen := 0 }) := by
  unfold mutt_sasl_conn_read
  rw [hs]
  have hng : ¬ d.blen > d.bpos := by omega
  simp only [hng, hssf, hr, call_read, ne_eq, not_true_eq_false, if_false]
  rfl

end passthrough

section passrun
variable {W : Type}

theorem unlayered_conn_fixed {d d1 : SASL_DATA} (h : d1.fixed = d.fixed) (c : CONNECTION) :
    unlayered_conn c d1 = unlayered_conn c d := by
  have h1 := congrArg SASL_DATA.sockdata h
  have h2 := congrArg SASL_DATA.msasl_open h
  have h3 := congrArg SASL_DATA.msasl_close h
  have h4 := congrArg SASL_DATA.msasl_read h
  have h5 := congrArg SASL_DATA.msasl_write h
  simp only [SASL_DATA.fixed] at h1 h2 h3 h4 h5
  simp only [unlayered_conn, h1, h2, h3, h4, h5]

theorem pending_nil {d : SASL_DATA} (h : d.blen ≤ d.bpos) : pending d = [] := by
  unfold pending
  rw [Nat.sub_eq_zero_of_le h, List.take_zero]

/-- One call on a pass-through layer and the same call on the unlayered twin. -/
theorem passthrough_step (env : Env W) (fuel : Nat) (c : Call) (s sN : State W)
    (a fo fr fw : Nat) (d : SASL_DATA) (hp : PassThrough s a fo fr fw d)
    (hconn : sN.conn = unlayered_conn s.conn d) (hworld : sN.world = s.world) :
    ∃ r s1 sN1 e d1, conn_call env fuel c s = some (r, s1) ∧
      conn_call env fuel c sN = some (r, sN1) ∧
      s1.trace = s.trace ++ [e] ∧
      sN1.trace = sN.trace ++ [e.map_conn (fun x => unlayered_conn x d)] ∧
      e.is_encode = false ∧ e.is_decode = false ∧
      PassThrough s1 a fo fr fw d1 ∧ d1.fixed = d.fixed ∧
      sN1.conn = unlayered_conn s1.conn d1 ∧ sN1.world = s1.world := by
  obtain ⟨hl, hssf, hpend, ho, hr, hw⟩ := hp
  have hs := hl.1
  obtain ⟨hsd, hheap⟩ := sasldata_of_some hs
  have hNsd : sN.conn.sockdata = d.sockdata := by rw [hconn]; rfl
  have hNo : sN.conn.conn_open = Method.native fo := by rw [hconn]; exact ho
  have hNr : sN.conn.conn_read = Method.native fr := by rw [hconn]; exact hr
  have hNw : sN.conn.conn_write = Method.native fw := by rw [hconn]; exact hw
  have hu : unlayered_conn { s.conn with sockdata := d.sockdata } d = sN.conn := by
    rw [hconn]; rfl
  rw [conn_call_layered hl]
  cases c with
  | c_open =>
    refine ⟨?r, ?s1, ?sN1, Event.conn_open fo { s.conn with sockdata := d.sockdata }
      (env.conn_open fo d.sockdata s.world).1, d, ?h1, ?h2, ?h3, ?h4, rfl, rfl, ?h5, rfl,
      ?h6, ?h7⟩
    case h1 =>
      simp only [layered_call, passthrough_open env s a fo d hs ho, Option.map_some']
      exact rfl
    case h2 =>
      simp only [conn_call, Call.slot, hNo, direct_call, call_open, hNsd, hworld,
        Option.map_some']
      exact rfl
    case h3 => rfl
    case h4 => simp only [Event.map_conn, hu]
    case h5 =>
      exact ⟨⟨sasldata_of_intro hsd hheap, hl.2.1, hl.2.2.1, hl.2.2.2⟩, hssf, hpend, ho, hr, hw⟩
    case h6 => exact hconn
    case h7 => rfl
  | c_write buf len =>
    refine ⟨?rw, ?s1w, ?sN1w, Event.conn_write fw { s.conn with sockdata := d.sockdata } buf len
      (env.conn_write fw d.sockdata buf len s.world).1, d, ?h1w, ?h2w, ?h3w, ?h4w, rfl, rfl, ?h5w,
      rfl, ?h6w, ?h7w⟩
    case h1w =>
      simp only [layered_call, passthrough_write env fuel buf len s a fw d hs hssf hw,
        Option.map_some']
      exact rfl
    case h2w =>
      simp only [conn_call, Call.slot, hNw, direct_call, call_write, hNsd, hworld,
        Option.map_some']
      exact rfl
    case h3w => rfl
    case h4w => simp only [Event.map_conn, hu]
    case h5w =>
      exact ⟨⟨sasldata_of_intro hsd hheap, hl.2.1, hl.2.2.1, hl.2.2.2⟩, hssf, hpend, ho, hr, hw⟩
    case h6w => exact hconn
    case h7w => rfl
  | c_read buf len =>
    refine ⟨?rr, ?s1r, ?sN1r, Event.conn_read fr { s.conn with sockdata := d.sockdata } buf len
      (env.conn_read fr d.sockdata buf len s.world).1
      (env.conn_read fr d.sockdata buf len s.world).2.1,
      { d with buf := if env.USE_SASL2 then d.buf else [], bpos := 0, blen := 0 },
      ?h1r, ?h2r, ?h3r, ?h4r, rfl, rfl, ?h5r, rfl, ?h6r, ?h7r⟩
    case h1r =>
      simp only [layered_call, passthrough_read env fuel buf len s a fr d hs hssf hpend hr,
        Option.map_some']
      exact rfl
    case h2r =>
      simp only [conn_call, Call.slot, hNr, direct_call, call_read, hNsd, hworld,
        Option.map_some']
      exact rfl
    case h3r => rfl
    case h4r => simp only [Event.map_conn, hu]
    case h5r =>
      exact ⟨⟨sasldata_of_relayer _ _ _, hl.2.1, hl.2.2.1, hl.2.2.2⟩, hssf, Nat.le_refl 0,
        ho, hr, hw⟩
    case h6r => simp only [relayer, set_sockdata, unlayered_conn, hconn]
    case h7r => rfl

theorem passthrough_run (env : Env W) (fuel : Nat) (a fo fr fw : Nat) (d0 : SASL_DATA) :
    ∀ (calls : List Call) (s sN : State W) (d : SASL_DATA),
      PassThrough s a fo fr fw d → d.fixed = d0.fixed →
      sN.conn = unlayered_conn s.conn d → sN.world = s.world →
      ∃ rs s1 sN1 evs d1, conn_run env fuel calls s = some (rs, s1) ∧
        conn_run env fuel calls sN = some (rs, sN1) ∧
        s1.world = sN1.world ∧
        s1.trace = s.trace ++ evs ∧
        sN1.trace = sN.trace ++ evs.map (Event.map_conn (fun x => unlayered_conn x d0)) ∧
        (∀ e ∈ evs, e.is_encode = false ∧ e.is_decode = false) ∧
        PassThrough s1 a fo fr fw d1 := by
  intro calls
  induction calls with
  | nil =>
    intro s sN d hp hf hconn hworld
    exact ⟨[], s, sN, [], d, rfl, rfl, hworld.symm, by simp, by simp, by simp, hp⟩
  | cons c cs ih =>
    intro s sN d hp hf hconn hworld
    obtain ⟨r, s1, sN1, e, d1, h1, h2, ht1, ht2, he1, he2, hp1, hf1, hc1, hw1⟩ :=
      passthrough_step env fuel c s sN a fo fr fw d hp hconn hworld
    obtain ⟨rs, s2, sN2, evs, d2, h3, h4, hw2, ht3, ht4, hev, hp2⟩ :=
      ih s1 sN1 d1 hp1 (hf1.trans hf) hc1 hw1
    refine ⟨r :: rs, s2, sN2, e :: evs, d2, ?_, ?_, hw2, ?_, ?_, ?_, hp2⟩
    · simp only [conn_run, h1, h3]
    · simp only [conn_run, h2, h4]
    · rw [ht3, ht1, List.append_assoc]; rfl
    · rw [ht4, ht2, List.append_assoc]
      have hfun : (fun x => unlayered_conn x d) = (fun x => unlayered_conn x d0) := by
        funext x
        exact unlayered_conn_fixed hf x
      rw [hfun]
      rfl
    · intro x hx
      rcases List.mem_cons.1 hx with rfl | hx
      · exact ⟨he1, he2⟩
      · exact hev x hx

end passrun

/-- Witness of C6: max buffer size 4 over a transport that writes at most 6
bytes at once; the first encoded chunk has 8 bytes, the transport write returns
6, and the layered write returns -1 after one encode and one transport write,
with 6 of the 10 input bytes left untouched. -/
theorem C6_fatal_write_failures_witness :
    (∃ rc s1,
      mutt_sasl_conn_write (mock mock_short) 11 [1, 2, 3, 4, 5, 6, 7, 8, 9, 10] 10
        (installed (mock mock_short) 9 (mock_state [])) = some (rc, s1) ∧
      ∀ pre e post,
        s1.trace = (installed (mock mock_short) 9 (mock_state [])).trace ++ pre ++
          e :: post → e.write_failed = true → rc = -1 ∧ post = []) ∧
    (mutt_sasl_conn_write (mock mock_short) 11 [1, 2, 3, 4, 5, 6, 7, 8, 9, 10] 10
        (installed (mock mock_short) 9 (mock_state []))).map
      (fun r => (r.1, (r.2.trace.drop 2).map Event.write_failed)) =
      some (-1, [false, true]) :=
  ⟨C6_fatal_write_failures (mock mock_short) 11 [1, 2, 3, 4, 5, 6, 7, 8, 9, 10] 10
      (installed (mock mock_short) 9 (mock_state [])) 0 4 4
      (fresh_sasldata (mock mock_short) 9 (mock_state [])) rfl (by decide) rfl rfl (by decide)
      (by decide),
    by decide⟩

/-- C7 (pass-through when unprotected): on a connection layered with strength
factor 0 and nothing pending, (1) the layered write calls the saved transport
write once, with the caller's buffer and length and the pre-layer data-slot, and
returns its result; (2) the layered read calls the saved transport read once,
with the caller's buffer and length, and returns its result and buffer; in both
nothing else is called and nothing is pending afterwards; (3) any sequence of
calls through the layered connection gives the replies, the world and, up to the
function-slots of the connection they record, the transport calls that the same
sequence gives on the connection without the layer, makes no encode or decode
call, and leaves the connection in the same condition. -/
theorem C7_pass_through {W : Type} (env : Env W) (fuel : Nat) (s : State W)
    (a fo fr fw : Nat) (d : SASL_DATA) (hp : PassThrough s a fo fr fw d) :
    (∀ buf len, ∃ s1,
      mutt_sasl_conn_write env fuel buf len s =
        some ((env.conn_write fw d.sockdata buf len s.world).1, s1) ∧
      s1.world = (env.conn_write fw d.sockdata buf len s.world).2 ∧
      s1.trace = s.trace ++ [Event.conn_write fw { s.conn with sockdata := d.sockdata } buf len
        (env.conn_write fw d.sockdata buf len s.world).1] ∧
      sasldata_of s1 = some (a, d)) ∧
    (∀ buf len, ∃ s1 d1,
      mutt_sasl_conn_read env fuel buf len s =
        some ((env.conn_read fr d.sockdata buf len s.world).1,
          (env.conn_read fr d.sockdata buf len s.world).2.1, s1) ∧
      s1.world = (env.conn_read fr d.sockdata buf len s.world).2.2 ∧
      s1.trace = s.trace ++ [Event.conn_read fr { s.conn with sockdata := d.sockdata } buf len
        (env.conn_read fr d.sockdata buf len s.world).1
        (env.conn_read fr d.sockdata buf len s.world).2.1] ∧
      sasldata_of s1 = some (a, d1) ∧ d1.fixed = d.fixed ∧ pending d1 = []) ∧
    (∀ calls, ∃ rs s1 s2 evs d1,
      conn_run env fuel calls s = some (rs, s1) ∧
      conn_run env fuel calls { s with conn := unlayered_conn s.conn d } = some (rs, s2) ∧
      s1.world = s2.world ∧
      s1.trace = s.trace ++ evs ∧
      s2.trace = s.trace ++ evs.map (Event.map_conn (fun x => unlayered_conn x d)) ∧
      (∀ e ∈ evs, e.is_encode = false ∧ e.is_decode = false) ∧
      PassThrough s1 a fo fr fw d1 ∧ pending d1 = []) := by
  obtain ⟨hl, hssf, hpend, ho, hr, hw⟩ := id hp
  refine ⟨?_, ?_, ?_⟩
  · intro buf len
    refine ⟨_, passthrough_write env fuel buf len s a fw d hl.1 hssf hw, rfl, rfl, ?_⟩
    obtain ⟨hsd, hheap⟩ := sasldata_of_some hl.1
    exact sasldata_of_intro hsd hheap
  · intro buf len
    refine ⟨_, _, passthrough_read env fuel buf len s a fr d hl.1 hssf hpend hr, rfl, rfl,
      sasldata_of_relayer _ _ _, rfl, pending_nil (Nat.le_refl 0)⟩
  · intro calls
    obtain ⟨rs, s1, s2, evs, d1, h1, h2, hw1, ht1, ht2, hev, hp1⟩ :=
      passthrough_run env fuel a fo fr fw d calls s { s with conn := unlayered_conn s.conn d } d
        hp rfl rfl rfl
    exact ⟨rs, s1, s2, evs, d1, h1, h2, hw1, ht1, ht2, hev, hp1, pending_nil hp1.2.2.1⟩

/-- Witness of C7: the mock security context with strength factor 0, installed
on the mock connection with "HELLO WORLD" on the wire. -/
theorem C7_pass_through_witness :
    PassThrough (installed (mock mock_0) 9 (mock_state hello_world)) 0 1 3 4
      (fresh_sasldata (mock mock_0) 9 (mock_state hello_world)) ∧
    (∃ rs s1 s2 evs d1,
      conn_run (mock mock_0) 0 [Call.c_write [33, 10] 2, Call.c_read [0, 0, 0, 0, 0] 5]
        (installed (mock mock_0) 9 (mock_state hello_world)) = some (rs, s1) ∧
      conn_run (mock mock_0) 0 [Call.c_write [33, 10] 2, Call.c_read [0, 0, 0, 0, 0] 5]
        { installed (mock mock_0) 9 (mock_state hello_world) with
          conn := unlayered_conn (installed (mock mock_0) 9 (mock_state hello_world)).conn
            (fresh_sasldata (mock mock_0) 9 (mock_state hello_world)) } = some (rs, s2) ∧
      s1.world = s2.world ∧
      s1.trace = (installed (mock mock_0) 9 (mock_state hello_world)).trace ++ evs ∧
      s2.trace = (installed (mock mock_0) 9 (mock_state hello_world)).trace ++
        evs.map (Event.map_conn (fun x => unlayered_conn x
          (fresh_sasldata (mock mock_0) 9 (mock_state hello_world)))) ∧
      (∀ e ∈ evs, e.is_encode = false ∧ e.is_decode = false) ∧
      PassThrough s1 0 1 3 4 d1 ∧ pending d1 = []) ∧
    (conn_run (mock mock_0) 0 [Call.c_write [33, 10] 2, Call.c_read [0, 0, 0, 0, 0] 5]
        (installed (mock mock_0) 9 (mock_state hello_world))).map
      (fun r => r.1) = some [Reply.mk 2 [], Reply.mk 5 [72, 69, 76, 76, 79]] :=
  ⟨⟨⟨rfl, rfl, rfl, rfl⟩, rfl, by decide, rfl, rfl, rfl⟩,
    (C7_pass_through (mock mock_0) 0 (installed (mock mock_0) 9 (mock_state hello_world))
      0 1 3 4 (fresh_sasldata (mock mock_0) 9 (mock_state hello_world))
      ⟨⟨rfl, rfl, rfl, rfl⟩, rfl, by decide, rfl, rfl, rfl⟩).2.2
      [Call.c_write [33, 10] 2, Call.c_read [0, 0, 0, 0, 0] 5],
    by decide⟩

/-! ## The read path -/

section readloop
variable {W : Type}

theorem count_reads_append (e1 e2 : List Event) :
    count_reads (e1 ++ e2) = count_reads e1 + count_reads e2 := by
  simp [count_reads]

theorem count_decodes_append (e1 e2 : List Event) :
    count_decodes (e1 ++ e2) = count_decodes e1 + count_decodes e2 := by
  simp [count_decodes]

/-- The loop of the layered read runs through `n` idle rounds. -/
theorem read_loop_idle (env : Env W) (fr len : Nat) :
    ∀ (n : Nat) (d : SASL_DATA) (buf : List Byte) (s : State W) (buf1 : List Byte) (w1 : W),
      d.msasl_read = Method.native fr → d.blen = 0 →
      idle_rounds env fr s.conn.sockdata d.saslconn len n buf s.world = some (buf1, w1) →
      ∃ evs d1, d1.fixed = d.fixed ∧ d1.bpos = d.bpos ∧ d1.blen = 0 ∧
        count_reads evs = n ∧ count_decodes evs = n ∧
        ∀ fuel, read_loop env (n + fuel) d buf len s =
          read_loop env fuel d1 buf1 len { s with world := w1, trace := s.trace ++ evs } := by
  intro n
  induction n with
  | zero =>
    intro d buf s buf1 w1 hr hb h
    simp only [idle_rounds, Option.some.injEq, Prod.mk.injEq] at h
    obtain ⟨rfl, rfl⟩ := h
    refine ⟨[], d, rfl, rfl, hb, rfl, rfl, ?_⟩
    intro fuel
    simp
  | succ n ih =>
    intro d buf s buf1 w1 hr hb h
    rw [idle_rounds] at h
    generalize hrd : env.conn_read fr s.conn.sockdata buf len s.world = r at h
    generalize hdc : env.sasl_decode d.saslconn r.2.1 r.1.toNat r.2.2 = dc at h
    split at h
    · rename_i hcond
      obtain ⟨hpos, hok, hout⟩ := hcond
      obtain ⟨evs, d1, hf, hbp, hbl, hcr, hcd, hloop⟩ :=
        ih { d with buf := dc.2.1, blen := dc.2.1.length } r.2.1
          { s with
            world := dc.2.2
            trace := s.trace ++ [Event.conn_read fr s.conn buf len r.1 r.2.1] ++
              [Event.sasl_decode d.saslconn r.2.1 r.1.toNat dc.1 dc.2.1] }
          buf1 w1 hr (by simp [hout]) h
      refine ⟨Event.conn_read fr s.conn buf len r.1 r.2.1 ::
        Event.sasl_decode d.saslconn r.2.1 r.1.toNat dc.1 dc.2.1 :: evs, d1, ?_, ?_, hbl, ?_, ?_, ?_⟩
      · rw [hf]; simp only [SASL_DATA.fixed]
      · rw [hbp]
      · rw [← hcr]; simp [count_reads, Event.is_read]
      · rw [← hcd]; simp [count_decodes, Event.is_decode]
      · intro fuel
        have hfu : n + 1 + fuel = (n + fuel) + 1 := by omega
        have hstep : read_loop env (n + fuel + 1) d buf len s =
            read_loop env (n + fuel) { d with buf := dc.2.1, blen := dc.2.1.length } r.2.1 len
              { s with
                world := dc.2.2
                trace := s.trace ++ [Event.conn_read fr s.conn buf len r.1 r.2.1] ++
                  [Event.sasl_decode d.saslconn r.2.1 r.1.toNat dc.1 dc.2.1] } := by
          rw [read_loop]
          simp only [hr, call_read, hrd, hdc]
          rw [if_neg (by omega), if_neg (by simpa using hok), if_pos (by simp [hout])]
        rw [hfu, hstep, hloop fuel]
        simp only [List.append_assoc, List.singleton_append, List.cons_append, List.nil_append]
    · simp at h

end readloop

section zeroloop
variable {W : Type}

theorem olen_eq_min (blen len : Nat) :
    (if blen - 0 > len then len else blen - 0) = min len blen := by
  split <;> omega

theorem delivered_memcpy (buf src : List Byte) (n : Nat) (h : n ≤ src.length) :
    delivered (n : Int) (memcpy buf src n) = src.take n := by
  unfold delivered memcpy
  rw [Int.toNat_ofNat, List.take_append_of_le_length (by rw [List.length_take]; omega)]
  rw [List.take_take, Nat.min_self]

/-- The layered read on an empty pending buffer, after `n` idle rounds of the
loop: what the next round decides. -/
theorem read_after_idle (env : Env W) (n m len : Nat) (buf bufn : List Byte) (s : State W)
    (wn : W) (a fr : Nat) (d : SASL_DATA)
    (hs : sasldata_of s = some (a, d)) (hssf : d.ssf ≠ 0) (hpend : d.blen ≤ d.bpos)
    (hr : d.msasl_read = Method.native fr)
    (hidle : idle_rounds env fr d.sockdata d.saslconn len n buf s.world = some (bufn, wn)) :
    ∃ evs d1, d1.fixed = d.fixed ∧ d1.bpos = 0 ∧ d1.blen = 0 ∧
      count_reads evs = n ∧ count_decodes evs = n ∧
      mutt_sasl_conn_read env (n + (m + 1)) buf len s =
        match read_loop env (m + 1) d1 bufn len
            { set_sockdata s d.sockdata with world := wn, trace := s.trace ++ evs } with
        | none => none
        | some (LoopExit.jump rc, sasldata1, buf1, s1) => some (rc, buf1, relayer s1 a sasldata1)
        | some (LoopExit.fall _, sasldata1, buf1, s1) =>
          some (((min len sasldata1.blen : Nat) : Int),
            memcpy buf1 sasldata1.buf (min len sasldata1.blen),
            relayer s1 a { sasldata1 with bpos := sasldata1.bpos + min len sasldata1.blen }) := by
  obtain ⟨evs, d1, hf, hbp, hbl, hcr, hcd, hloop⟩ :=
    read_loop_idle env fr len n
      { d with buf := if env.USE_SASL2 then d.buf else [], bpos := 0, blen := 0 }
      buf (set_sockdata s d.sockdata) bufn wn hr rfl hidle
  refine ⟨evs, d1, hf, hbp, hbl, hcr, hcd, ?_⟩
  unfold mutt_sasl_conn_read
  rw [hs]
  have hng : ¬ d.blen > d.bpos := by omega
  simp only [hng, if_false, hssf, ne_eq, not_false_eq_true, if_true]
  rw [hloop (m + 1)]
  have key : ∀ res : Option (LoopExit × SASL_DATA × List Byte × State W),
      res = read_loop env (m + 1) d1 bufn len
        { set_sockdata s d.sockdata with world := wn, trace := s.trace ++ evs } →
      (match res with
        | none => none
        | some (LoopExit.jump rc, sasldata1, buf1, s1) => some (rc, buf1, relayer s1 a sasldata1)
        | some (LoopExit.fall _, sasldata1, buf1, s1) =>
          some (((if sasldata1.blen - sasldata1.bpos > len then len
              else sasldata1.blen - sasldata1.bpos : Nat) : Int),
            memcpy buf1 sasldata1.buf (if sasldata1.blen - sasldata1.bpos > len then len
              else sasldata1.blen - sasldata1.bpos),
            relayer s1 a { sasldata1 with bpos := sasldata1.bpos +
              (if sasldata1.blen - sasldata1.bpos > len then len
                else sasldata1.blen - sasldata1.bpos) })) =
      (match res with
        | none => none
        | some (LoopExit.jump rc, sasldata1, buf1, s1) => some (rc, buf1, relayer s1 a sasldata1)
        | some (LoopExit.fall _, sasldata1, buf1, s1) =>
          some (((min len sasldata1.blen : Nat) : Int),
            memcpy buf1 sasldata1.buf (min len sasldata1.blen),
            relayer s1 a { sasldata1 with bpos := sasldata1.bpos + min len sasldata1.blen })) := by
    intro res hres
    cases res with
    | none => rfl
    | some x =>
      obtain ⟨ex, sd1, b1, s1⟩ := x
      cases ex with
      | jump rc => rfl
      | fall rc =>
        obtain ⟨-, hb, -⟩ := read_loop_calls env len _ _ _ _ _ _ _ _ hres.symm
        have hb0 : sd1.bpos = 0 := hb.trans hbp
        simp only [hb0, olen_eq_min]
  exact key _ rfl

end zeroloop

/-- C9 (zero-length decode loop): with a non-zero strength factor and an empty
pending buffer, let the first `n` transport reads return positive counts whose
chunks decode successfully to the empty output (`idle_rounds`), and let `r` be
what the next transport read returns and `dc` what `sasl_decode` makes of it.
With fuel for `n + 1` rounds: (1) if `r` is a positive count and `dc` is a
successful, non-empty output, the layered read returns after exactly `n + 1`
transport reads and `n + 1` decode calls (k = n + 1 in the claim), its result
is `min len (length of the output)`, positive for a positive `len`, and the
bytes delivered are the first bytes of that output; (2) if `r` is a result
`<= 0`, the layered read returns that result unchanged, after `n + 1` transport
reads and `n` decode calls, i.e. without a decode call on it. -/
theorem C9_zero_length_decode_loop {W : Type} (env : Env W) (n fuel len : Nat)
    (buf bufn : List Byte) (s : State W) (wn : W) (a fr : Nat) (d : SASL_DATA)
    (r dc : Int × List Byte × W)
    (hs : sasldata_of s = some (a, d)) (hssf : d.ssf ≠ 0) (hpend : d.blen ≤ d.bpos)
    (hr : d.msasl_read = Method.native fr) (hfuel : n < fuel) (hlen : 0 < len)
    (hidle : idle_rounds env fr d.sockdata d.saslconn len n buf s.world = some (bufn, wn))
    (hrd : env.conn_read fr d.sockdata bufn len wn = r)
    (hdc : env.sasl_decode d.saslconn r.2.1 r.1.toNat r.2.2 = dc) :
    (0 < r.1 → dc.1 = SASL_OK → dc.2.1 ≠ [] →
      ∃ s1 evs,
        mutt_sasl_conn_read env fuel buf len s =
          some (((min len dc.2.1.length : Nat) : Int),
            memcpy r.2.1 dc.2.1 (min len dc.2.1.length), s1) ∧
        s1.trace = s.trace ++ evs ∧ count_reads evs = n + 1 ∧ count_decodes evs = n + 1 ∧
        0 < min len dc.2.1.length ∧
        delivered ((min len dc.2.1.length : Nat) : Int)
          (memcpy r.2.1 dc.2.1 (min len dc.2.1.length)) = dc.2.1.take (min len dc.2.1.length)) ∧
    (r.1 ≤ 0 →
      ∃ s1 evs,
        mutt_sasl_conn_read env fuel buf len s = some (r.1, r.2.1, s1) ∧
        s1.trace = s.trace ++ evs ∧ count_reads evs = n + 1 ∧ count_decodes evs = n) := by
  obtain ⟨m, rfl⟩ : ∃ m, fuel = n + (m + 1) := ⟨fuel - n - 1, by omega⟩
  obtain ⟨evs, d1, hf, hbp, hbl, hcr, hcd, hread⟩ :=
    read_after_idle env n m len buf bufn s wn a fr d hs hssf hpend hr hidle
  have hd1r : d1.msasl_read = Method.native fr := by
    have := congrArg SASL_DATA.msasl_read hf
    exact this.trans hr
  have hd1s : d1.saslconn = d.saslconn := by
    have := congrArg SASL_DATA.saslconn hf
    exact this
  constructor
  · intro hpos hok hout
    have hlenpos : 0 < dc.2.1.length := List.length_pos.2 hout
    have hloop : read_loop env (m + 1) d1 bufn len
        { set_sockdata s d.sockdata with world := wn, trace := s.trace ++ evs } =
        some (LoopExit.fall dc.1, { d1 with buf := dc.2.1, blen := dc.2.1.length }, r.2.1,
          { set_sockdata s d.sockdata with
            world := dc.2.2
            trace := s.trace ++ evs ++
              [Event.conn_read fr { s.conn with sockdata := d.sockdata } bufn len r.1 r.2.1] ++
              [Event.sasl_decode d.saslconn r.2.1 r.1.toNat dc.1 dc.2.1] }) := by
      rw [read_loop]
      simp only [hd1r, call_read, set_sockdata, hrd, hd1s, hdc]
      rw [if_neg (by omega), if_neg (by simpa using hok), if_neg (by show ¬ (dc.2.1.length = 0); omega)]
    rw [hread, hloop]
    refine ⟨_, evs ++ [Event.conn_read fr { s.conn with sockdata := d.sockdata } bufn len r.1 r.2.1,
      Event.sasl_decode d.saslconn r.2.1 r.1.toNat dc.1 dc.2.1], rfl, ?_, ?_, ?_, ?_, ?_⟩
    · simp [relayer, set_sockdata]
    · rw [count_reads_append, hcr]; simp [count_reads, Event.is_read]
    · rw [count_decodes_append, hcd]; simp [count_decodes, Event.is_decode]
    · simp only [Nat.lt_min]; exact ⟨hlen, hlenpos⟩
    · exact delivered_memcpy _ _ _ (Nat.min_le_right _ _)
  · intro hle
    have hloop : read_loop env (m + 1) d1 bufn len
        { set_sockdata s d.sockdata with world := wn, trace := s.trace ++ evs } =
        some (LoopExit.jump r.1, d1, r.2.1,
          { set_sockdata s d.sockdata with
            world := r.2.2
            trace := s.trace ++ evs ++
              [Event.conn_read fr { s.conn with sockdata := d.sockdata } bufn len r.1 r.2.1] }) := by
      rw [read_loop]
      simp only [hd1r, call_read, set_sockdata, hrd]
      rw [if_pos hle]
    rw [hread, hloop]
    refine ⟨_, evs ++ [Event.conn_read fr { s.conn with sockdata := d.sockdata } bufn len r.1 r.2.1],
      rfl, ?_, ?_, ?_⟩
    · simp [relayer, set_sockdata]
    · rw [count_reads_append, hcr]; simp [count_reads, Event.is_read]
    · rw [count_decodes_append, hcd]; simp [count_decodes, Event.is_decode]

/-- Witness of C9 (the case k = 2 of the spec and the end-of-stream case): a
frame of 6 bytes read with a 4-byte buffer takes two transport reads, the first
decoding to nothing; with only the first 4 bytes on the wire the second
transport read returns 0 and so does the layered read. -/
theorem C9_zero_length_decode_loop_witness :
    (∃ s1 evs,
      mutt_sasl_conn_read (mock mock_4096) 5 [0, 0, 0, 0] 4
          (installed (mock mock_4096) 9 (mock_state [0, 0, 0, 2, 72, 73])) =
        some (((min 4 [72, 73].length : Nat) : Int), memcpy [72, 73, 0, 2] [72, 73]
          (min 4 [72, 73].length), s1) ∧
      s1.trace = (installed (mock mock_4096) 9
        (mock_state [0, 0, 0, 2, 72, 73])).trace ++ evs ∧
      count_reads evs = 1 + 1 ∧ count_decodes evs = 1 + 1 ∧
      0 < min 4 [72, 73].length ∧
      delivered ((min 4 [72, 73].length : Nat) : Int)
        (memcpy [72, 73, 0, 2] [72, 73] (min 4 [72, 73].length)) =
          [72, 73].take (min 4 [72, 73].length)) ∧
    (∃ s1 evs,
      mutt_sasl_conn_read (mock mock_4096) 5 [0, 0, 0, 0] 4
          (installed (mock mock_4096) 9 (mock_state [0, 0, 0, 2])) =
        some (0, [0, 0, 0, 2], s1) ∧
      s1.trace = (installed (mock mock_4096) 9 (mock_state [0, 0, 0, 2])).trace ++ evs ∧
      count_reads evs = 1 + 1 ∧ count_decodes evs = 1) :=
  ⟨(C9_zero_length_decode_loop (mock mock_4096) 1 5 4 [0, 0, 0, 0] [0, 0, 0, 2]
      (installed (mock mock_4096) 9 (mock_state [0, 0, 0, 2, 72, 73]))
      { stream := [72, 73], acc := [0, 0, 0, 2] } 0 3
      (fresh_sasldata (mock mock_4096) 9 (mock_state [0, 0, 0, 2, 72, 73]))
      (2, [72, 73, 0, 2], { stream := [], acc := [0, 0, 0, 2] })
      (0, [72, 73], { stream := [], acc := [] })
      rfl (by decide) (by decide) rfl (by decide) (by decide) (by decide) (by decide)
      (by decide)).1 (by decide) (by decide) (by decide),
    (C9_zero_length_decode_loop (mock mock_4096) 1 5 4 [0, 0, 0, 0] [0, 0, 0, 2]
      (installed (mock mock_4096) 9 (mock_state [0, 0, 0, 2]))
      { stream := [], acc := [0, 0, 0, 2] } 0 3
      (fresh_sasldata (mock mock_4096) 9 (mock_state [0, 0, 0, 2]))
      (0, [0, 0, 0, 2], { stream := [], acc := [0, 0, 0, 2] })
      (0, [], { stream := [], acc := [0, 0, 0, 2] })
      rfl (by decide) (by decide) rfl (by decide) (by decide) (by decide) (by decide)
      (by decide)).2 (by decide)⟩

/-- C8 (decode failure is an error result): with a non-zero strength factor and
an empty pending buffer, let the first `n` transport reads be idle rounds
(`idle_rounds`; `n = 0` is the first read of the call), let the next transport
read return the positive count `r.1`, and let `sasl_decode` fail on that chunk:
its status `dc.1` is not `SASL_OK` (`hfail`) and is one of the statuses the
security library fails with, which are negative (`hlib`; the positive codes
`SASL_CONTINUE` and `SASL_INTERACT` are no result of `sasl_decode`).  With fuel
for `n + 1` rounds the layered read returns, its result is that status, a
negative value and so no positive byte count, and the failed decode is the last
call it made: the events after the `n` idle rounds are that transport read and
that decode call, nothing follows them. -/
theorem C8_decode_failure_error_result {W : Type} (env : Env W) (n fuel len : Nat)
    (buf bufn : List Byte) (s : State W) (wn : W) (a fr : Nat) (d : SASL_DATA)
    (r dc : Int × List Byte × W)
    (hs : sasldata_of s = some (a, d)) (hssf : d.ssf ≠ 0) (hpend : d.blen ≤ d.bpos)
    (hr : d.msasl_read = Method.native fr) (hfuel : n < fuel)
    (hidle : idle_rounds env fr d.sockdata d.saslconn len n buf s.world = some (bufn, wn))
    (hrd : env.conn_read fr d.sockdata bufn len wn = r)
    (hdc : env.sasl_decode d.saslconn r.2.1 r.1.toNat r.2.2 = dc)
    (hpos : 0 < r.1) (hfail : dc.1 ≠ SASL_OK) (hlib : dc.1 ≤ 0) :
    ∃ rc buf1 s1 evs,
      mutt_sasl_conn_read env fuel buf len s = some (rc, buf1, s1) ∧
      rc = dc.1 ∧ rc < 0 ∧
      s1.trace = s.trace ++ evs ++
        [Event.conn_read fr { s.conn with sockdata := d.sockdata } bufn len r.1 r.2.1,
         Event.sasl_decode d.saslconn r.2.1 r.1.toNat dc.1 dc.2.1] ∧
      count_reads evs = n ∧ count_decodes evs = n := by
  obtain ⟨m, rfl⟩ : ∃ m, fuel = n + (m + 1) := ⟨fuel - n - 1, by omega⟩
  obtain ⟨evs, d1, hf, hbp, hbl, hcr, hcd, hread⟩ :=
    read_after_idle env n m len buf bufn s wn a fr d hs hssf hpend hr hidle
  have hd1r : d1.msasl_read = Method.native fr := by
    have := congrArg SASL_DATA.msasl_read hf
    exact this.trans hr
  have hd1s : d1.saslconn = d.saslconn := by
    have := congrArg SASL_DATA.saslconn hf
    exact this
  have hloop : read_loop env (m + 1) d1 bufn len
      { set_sockdata s d.sockdata with world := wn, trace := s.trace ++ evs } =
      some (LoopExit.jump dc.1, { d1 with buf := dc.2.1, blen := dc.2.1.length }, r.2.1,
        { set_sockdata s d.sockdata with
          world := dc.2.2
          trace := s.trace ++ evs ++
            [Event.conn_read fr { s.conn with sockdata := d.sockdata } bufn len r.1 r.2.1] ++
            [Event.sasl_decode d.saslconn r.2.1 r.1.toNat dc.1 dc.2.1] }) := by
    rw [read_loop]
    simp only [hd1r, call_read, set_sockdata, hrd, hd1s, hdc]
    rw [if_neg (by omega), if_pos (by simpa using hfail)]
  rw [hread, hloop]
  refine ⟨dc.1, r.2.1, _, evs, rfl, rfl, ?_, ?_, hcr, hcd⟩
  · have h0 : dc.1 ≠ 0 := hfail
    omega
  · simp [relayer, set_sockdata]

/-- Witness of C8: the frame on the wire is malformed, the first transport read
returns 5 bytes and `sasl_decode` fails on them with `SASL_BADMAC` (-9). -/
theorem C8_decode_failure_error_result_witness :
    ∃ rc buf1 s1 evs,
      mutt_sasl_conn_read (mock mock_4096) 10 [0, 0, 0, 0, 0] 5
          (installed (mock mock_4096) 9 (mock_state [1, 0, 0, 2, 72, 73])) =
        some (rc, buf1, s1) ∧
      rc = -9 ∧ rc < 0 ∧
      s1.trace = (installed (mock mock_4096) 9 (mock_state [1, 0, 0, 2, 72, 73])).trace ++
        evs ++
        [Event.conn_read 3
            { (installed (mock mock_4096) 9 (mock_state [1, 0, 0, 2, 72, 73])).conn with
              sockdata := Ptr.foreign 7 }
            [0, 0, 0, 0, 0] 5 5 [1, 0, 0, 2, 72],
         Event.sasl_decode 9 [1, 0, 0, 2, 72] 5 (-9) []] ∧
      count_reads evs = 0 ∧ count_decodes evs = 0 :=
  C8_decode_failure_error_result (mock mock_4096) 0 10 5 [0, 0, 0, 0, 0] [0, 0, 0, 0, 0]
    (installed (mock mock_4096) 9 (mock_state [1, 0, 0, 2, 72, 73]))
    { stream := [1, 0, 0, 2, 72, 73], acc := [] } 0 3
    (fresh_sasldata (mock mock_4096) 9 (mock_state [1, 0, 0, 2, 72, 73]))
    (5, [1, 0, 0, 2, 72], { stream := [73], acc := [] })
    (-9, [], { stream := [73], acc := [] })
    rfl (by decide) (by decide) rfl (by decide) rfl (by decide) (by decide)
    (by decide) (by decide) (by decide)

section decoded
variable {W : Type}

theorem decoded_bytes_append (e1 e2 : List Event) :
    decoded_bytes (e1 ++ e2) = decoded_bytes e1 ++ decoded_bytes e2 := by
  simp [decoded_bytes]

theorem read_loop_decoded (env : Env W) (len : Nat) :
    ∀ (fuel : Nat) (d : SASL_DATA) (buf : List Byte) (s : State W)
      (ex : LoopExit) (d1 : SASL_DATA) (buf1 : List Byte) (s1 : State W),
      d.blen = 0 → read_loop env fuel d buf len s = some (ex, d1, buf1, s1) →
      ∃ evs, s1.trace = s.trace ++ evs ∧ d1.blen ≤ d1.buf.length ∧
        ((∀ e ∈ evs, e.decode_ok) →
          (∀ rc, ex = LoopExit.jump rc → rc ≤ 0 ∧ decoded_bytes evs = [] ∧ d1.blen = 0) ∧
          (∀ rc, ex = LoopExit.fall rc →
            decoded_bytes evs = d1.buf ∧ d1.blen = d1.buf.length ∧ 0 < d1.blen)) := by
  intro fuel
  induction fuel with
  | zero => intro d buf s ex d1 buf1 s1 hb h; simp [read_loop] at h
  | succ n ih =>
    intro d buf s ex d1 buf1 s1 hb h
    rw [read_loop] at h
    cases hc : call_read env d.msasl_read buf len s with
    | none => rw [hc] at h; simp at h
    | some x =>
      obtain ⟨rc, b, s0⟩ := x
      obtain ⟨f, -, -, -, hs0⟩ := call_read_some hc
      rw [hc] at h
      simp only at h
      generalize hdc : env.sasl_decode d.saslconn b rc.toNat s0.world = dc at h
      split at h
      · rename_i hle
        simp only [Option.some.injEq, Prod.mk.injEq] at h
        obtain ⟨rfl, rfl, -, rfl⟩ := h
        refine ⟨[Event.conn_read f s.conn buf len rc b], by rw [hs0], by omega, ?_⟩
        intro _
        refine ⟨?_, ?_⟩
        · intro rc1 h1
          cases h1
          exact ⟨hle, rfl, hb⟩
        · intro rc1 h1
          cases h1
      · split at h
        · rename_i hbad
          simp only [Option.some.injEq, Prod.mk.injEq] at h
          obtain ⟨rfl, rfl, -, rfl⟩ := h
          refine ⟨[Event.conn_read f s.conn buf len rc b,
            Event.sasl_decode d.saslconn b rc.toNat dc.1 dc.2.1], ?_, Nat.le_refl _, ?_⟩
          · rw [hs0]; simp
          · intro hok
            exfalso
            have h1 := hok (Event.sasl_decode d.saslconn b rc.toNat dc.1 dc.2.1) (by simp)
            simp only [Event.decode_ok, beq_iff_eq] at h1
            exact hbad h1
        · split at h
          · rename_i hok hzero
            obtain ⟨evs, ht, hle1, hprop⟩ := ih _ _ _ _ _ _ _ hzero h
            have hout : dc.2.1 = [] := List.length_eq_zero.1 hzero
            refine ⟨Event.conn_read f s.conn buf len rc b ::
              Event.sasl_decode d.saslconn b rc.toNat dc.1 dc.2.1 :: evs, ?_, hle1, ?_⟩
            · rw [ht, hs0]; simp
            · intro hall
              have hall1 : ∀ e ∈ evs, e.decode_ok := fun e he =>
                hall e (List.mem_cons_of_mem _ (List.mem_cons_of_mem _ he))
              obtain ⟨hj, hfall⟩ := hprop hall1
              have hdec : decoded_bytes (Event.conn_read f s.conn buf len rc b ::
                  Event.sasl_decode d.saslconn b rc.toNat dc.1 dc.2.1 :: evs) =
                  decoded_bytes evs := by
                simp [decoded_bytes, Event.decoded, hout]
              rw [hdec]
              exact ⟨hj, hfall⟩
          · rename_i hok hnz
            simp only [Option.some.injEq, Prod.mk.injEq] at h
            obtain ⟨rfl, rfl, -, rfl⟩ := h
            refine ⟨[Event.conn_read f s.conn buf len rc b,
              Event.sasl_decode d.saslconn b rc.toNat dc.1 dc.2.1], ?_, Nat.le_refl _, ?_⟩
            · rw [hs0]; simp
            · intro _
              refine ⟨?_, ?_⟩
              · intro rc1 h1
                cases h1
              · intro rc1 _
                refine ⟨by simp [decoded_bytes, Event.decoded], rfl, ?_⟩
                exact Nat.pos_of_ne_zero hnz

end decoded

section readstep
variable {W : Type}

theorem take_split (X : List Byte) (k m : Nat) (h : m ≤ k) :
    X.take k = X.take m ++ (X.drop m).take (k - m) := by
  have hk : k = m + (k - m) := by omega
  conv_lhs => rw [hk]
  exact List.take_add X m (k - m)

theorem delivered_nonpos (rc : Int) (buf : List Byte) (h : rc ≤ 0) : delivered rc buf = [] := by
  unfold delivered
  rw [Int.toNat_eq_zero.2 h, List.take_zero]

/-- One layered read with a non-zero strength factor: the bytes decoded during
the call join the pending bytes, and the bytes delivered leave them. -/
theorem read_step (env : Env W) (fuel : Nat) (buf : List Byte) (len : Nat) (s s1 : State W)
    (a : Nat) (d : SASL_DATA) (rc : Int) (buf1 : List Byte)
    (hs : sasldata_of s = some (a, d)) (hssf : d.ssf ≠ 0) (hinv : d.blen ≤ d.buf.length)
    (h : mutt_sasl_conn_read env fuel buf len s = some (rc, buf1, s1)) :
    ∃ evs d1, s1.trace = s.trace ++ evs ∧ sasldata_of s1 = some (a, d1) ∧ d1.ssf ≠ 0 ∧
      d1.blen ≤ d1.buf.length ∧
      ((∀ e ∈ evs, e.decode_ok) →
        pending d ++ decoded_bytes evs = delivered rc buf1 ++ pending d1 ∧
        (delivered rc buf1).length = min len ((delivered rc buf1).length + (pending d1).length) ∧
        (0 < rc → rc = ((delivered rc buf1).length : Int))) := by
  unfold mutt_sasl_conn_read at h
  rw [hs] at h
  simp only at h
  split at h
  · rename_i hgt
    simp only [Option.some.injEq, Prod.mk.injEq] at h
    obtain ⟨rfl, rfl, rfl⟩ := h
    generalize holen : (if d.blen - d.bpos > len then len else d.blen - d.bpos) = olen
    have hol : olen = min len (d.blen - d.bpos) := by
      rw [← holen]; split <;> omega
    have hdl : delivered (olen : Int) (memcpy buf (d.buf.drop d.bpos) olen) =
        (d.buf.drop d.bpos).take olen :=
      delivered_memcpy _ _ _ (by rw [List.length_drop]; omega)
    refine ⟨[], { d with bpos := d.bpos + olen }, by simp [relayer], sasldata_of_relayer _ _ _,
      hssf, hinv, ?_⟩
    intro _
    rw [hdl]
    have hp1 : pending { d with bpos := d.bpos + olen } =
        ((d.buf.drop d.bpos).drop olen).take (d.blen - d.bpos - olen) := by
      simp only [pending, List.drop_drop]
      rw [Nat.sub_add_eq]
    rw [hp1]
    refine ⟨?_, ?_, ?_⟩
    · simp only [decoded_bytes, List.map_nil, List.flatten_nil, List.append_nil, pending]
      exact take_split _ _ _ (by omega)
    · simp only [List.length_take, List.length_drop]
      omega
    · intro _
      simp only [List.length_take, List.length_drop]
      omega
  · rename_i hngt
    have hpd : pending d = [] := pending_nil (by omega)
    split at h
    · simp at h
    · rename_i rc0 d0 b0 s0 hl
      simp only [Option.some.injEq, Prod.mk.injEq] at h
      obtain ⟨rfl, rfl, rfl⟩ := h
      obtain ⟨hf, hbp, -⟩ := read_loop_calls env len _ _ _ _ _ _ _ _ hl
      obtain ⟨evs, ht, hle, hprop⟩ := read_loop_decoded env len _ _ _ _ _ _ _ _ rfl hl
      refine ⟨evs, d0, by simpa [relayer, set_sockdata] using ht, sasldata_of_relayer _ _ _,
        ?_, hle, ?_⟩
      · have := congrArg SASL_DATA.ssf hf
        simp only [SASL_DATA.fixed] at this
        rw [this]; exact hssf
      · intro hall
        obtain ⟨hrc, hdec, hbl⟩ := (hprop hall).1 rc0 rfl
        rw [hpd, hdec, delivered_nonpos _ _ hrc, pending_nil (by omega)]
        refine ⟨rfl, by simp, ?_⟩
        intro hpos; omega
    · rename_i rc0 d0 b0 s0 hl
      simp only [Option.some.injEq, Prod.mk.injEq] at h
      obtain ⟨rfl, rfl, rfl⟩ := h
      obtain ⟨hf, hbp, -⟩ := read_loop_calls env len _ _ _ _ _ _ _ _ hl
      obtain ⟨evs, ht, hle, hprop⟩ := read_loop_decoded env len _ _ _ _ _ _ _ _ rfl hl
      have hb0 : d0.bpos = 0 := hbp
      generalize holen : (if d0.blen - d0.bpos > len then len else d0.blen - d0.bpos) = olen
      have hol : olen = min len d0.blen := by
        rw [← holen, hb0]; split <;> omega
      refine ⟨evs, { d0 with bpos := d0.bpos + olen },
        by simpa [relayer, set_sockdata] using ht, sasldata_of_relayer _ _ _, ?_, hle, ?_⟩
      · have := congrArg SASL_DATA.ssf hf
        simp only [SASL_DATA.fixed] at this
        show d0.ssf ≠ 0
        rw [this]; exact hssf
      · intro hall
        obtain ⟨hdec, hbl, hpos⟩ := (hprop hall).2 rc0 rfl
        have hdl : delivered (olen : Int) (memcpy b0 d0.buf olen) = d0.buf.take olen :=
          delivered_memcpy _ _ _ (by omega)
        have hp1 : pending { d0 with bpos := d0.bpos + olen } = d0.buf.drop olen := by
          simp only [pending, hb0, Nat.zero_add]
          rw [List.take_of_length_le]
          rw [List.length_drop]; omega
        rw [hpd, hdec, hdl, hp1, List.nil_append, List.take_append_drop]
        refine ⟨rfl, ?_, ?_⟩
        · simp only [List.length_take, List.length_drop]; omega
        · intro _
          simp only [List.length_take]; omega

end readstep

section readrun
variable {W : Type}

theorem pending_of_eq {s : State W} {a : Nat} {d : SASL_DATA}
    (h : sasldata_of s = some (a, d)) : pending_of s = pending d := by
  simp [pending_of, h]

theorem read_run_spec (env : Env W) (fuel a : Nat) :
    ∀ (reqs : List (List Byte × Nat)) (s s1 : State W) (d : SASL_DATA) (outs : List ReadOut),
      sasldata_of s = some (a, d) → d.ssf ≠ 0 → d.blen ≤ d.buf.length →
      read_run env fuel reqs s = some (outs, s1) →
      ∃ evs d1, s1.trace = s.trace ++ evs ∧ sasldata_of s1 = some (a, d1) ∧
        ((∀ e ∈ evs, e.decode_ok) →
          pending d ++ decoded_bytes evs = (outs.map ReadOut.bytes).flatten ++ pending d1 ∧
          List.Forall₂ (fun req o =>
            o.bytes.length = min req.2 (o.bytes.length + o.left.length) ∧
            (0 < o.rc → o.rc = (o.bytes.length : Int))) reqs outs) := by
  intro reqs
  induction reqs with
  | nil =>
    intro s s1 d outs hs hssf hinv h
    simp only [read_run, Option.some.injEq, Prod.mk.injEq] at h
    obtain ⟨rfl, rfl⟩ := h
    refine ⟨[], d, by simp, hs, ?_⟩
    intro _
    simp [decoded_bytes]
  | cons req rest ih =>
    intro s s1 d outs hs hssf hinv h
    obtain ⟨buf, len⟩ := req
    rw [read_run] at h
    split at h
    · simp at h
    · rename_i rc b s0 hread
      split at h
      · simp at h
      · rename_i outs0 s2 hrest
        simp only [Option.some.injEq, Prod.mk.injEq] at h
        obtain ⟨rfl, rfl⟩ := h
        obtain ⟨evs1, d1, ht1, hs1, hssf1, hinv1, hp1⟩ :=
          read_step env fuel buf len s s0 a d rc b hs hssf hinv hread
        obtain ⟨evs2, d2, ht2, hs2, hp2⟩ := ih s0 s2 d1 outs0 hs1 hssf1 hinv1 hrest
        refine ⟨evs1 ++ evs2, d2, by rw [ht2, ht1, List.append_assoc], hs2, ?_⟩
        intro hall
        have hall1 : ∀ e ∈ evs1, e.decode_ok := fun e he =>
          hall e (List.mem_append_left _ he)
        have hall2 : ∀ e ∈ evs2, e.decode_ok := fun e he =>
          hall e (List.mem_append_right _ he)
        obtain ⟨he1, hl1, hr1⟩ := hp1 hall1
        obtain ⟨he2, hf2⟩ := hp2 hall2
        refine ⟨?_, List.Forall₂.cons ⟨?_, hr1⟩ hf2⟩
        · rw [decoded_bytes_append, ← List.append_assoc, he1, List.append_assoc, he2]
          simp
        · rw [pending_of_eq hs1]
          exact hl1

end readrun

/-- C3 (read buffering): with a non-zero strength factor, for any successive
layered reads (any buffers, any requested lengths, 1-byte reads included) during
which every `sasl_decode` call succeeds, the bytes that were pending before
followed by the outputs of the decode calls, in call order, are exactly the
bytes delivered by the reads, in call order, followed by the bytes still pending
afterwards: the delivered bytes are a prefix of the decoded stream, nothing is
dropped, duplicated or reordered.  Each read delivers min (requested length,
bytes left in the current decoded chunk), and a positive result is the number
of bytes delivered. -/
theorem C3_read_buffering {W : Type} (env : Env W) (fuel a : Nat)
    (reqs : List (List Byte × Nat)) (s s1 : State W) (d : SASL_DATA) (outs : List ReadOut)
    (hs : sasldata_of s = some (a, d)) (hssf : d.ssf ≠ 0) (hinv : d.blen ≤ d.buf.length)
    (hrun : read_run env fuel reqs s = some (outs, s1))
    (hdec : ∀ e ∈ s1.trace.drop s.trace.length, e.decode_ok) :
    ∃ d1, sasldata_of s1 = some (a, d1) ∧
      pending d ++ decoded_bytes (s1.trace.drop s.trace.length) =
        (outs.map ReadOut.bytes).flatten ++ pending d1 ∧
      List.Forall₂ (fun req o =>
        o.bytes.length = min req.2 (o.bytes.length + o.left.length) ∧
        (0 < o.rc → o.rc = (o.bytes.length : Int))) reqs outs := by
  obtain ⟨evs, d1, ht, hs1, hp⟩ := read_run_spec env fuel a reqs s s1 d outs hs hssf hinv hrun
  have hdrop : s1.trace.drop s.trace.length = evs := by
    rw [ht, List.drop_left]
  rw [hdrop] at hdec ⊢
  exact ⟨d1, hs1, hp hdec⟩

/-- Witness of C3: the scenario of the spec read back with requested lengths 5,
1, 3 and 4; the 15-byte frame arrives in three transport reads of 5 bytes, the
first two of which decode to nothing. -/
theorem C3_read_buffering_witness :
    ∃ outs s1,
      read_run (mock mock_4096) 5
        [([0, 0, 0, 0, 0], 5), ([0], 1), ([0, 0, 0], 3), ([0, 0, 0, 0], 4)]
        (installed (mock mock_4096) 9
          (mock_state ([0, 0, 0, 11] ++ hello_world))) = some (outs, s1) ∧
      outs.map ReadOut.bytes = [[72, 69, 76, 76, 79], [32], [87, 79, 82], [76, 68]] ∧
      decoded_bytes (s1.trace.drop 2) = hello_world ∧
      ∃ d1, sasldata_of s1 = some (0, d1) ∧
        pending (fresh_sasldata (mock mock_4096) 9 (mock_state ([0, 0, 0, 11] ++ hello_world))) ++
          decoded_bytes (s1.trace.drop (installed (mock mock_4096) 9
            (mock_state ([0, 0, 0, 11] ++ hello_world))).trace.length) =
          (outs.map ReadOut.bytes).flatten ++ pending d1 ∧
        List.Forall₂ (fun req o =>
          o.bytes.length = min req.2 (o.bytes.length + o.left.length) ∧
          (0 < o.rc → o.rc = (o.bytes.length : Int)))
          [([0, 0, 0, 0, 0], 5), ([0], 1), ([0, 0, 0], 3), ([0, 0, 0, 0], 4)] outs :=
  ⟨_, _, rfl, by decide, by decide,
    C3_read_buffering (mock mock_4096) 5 0
      [([0, 0, 0, 0, 0], 5), ([0], 1), ([0, 0, 0], 3), ([0, 0, 0, 0], 4)]
      (installed (mock mock_4096) 9 (mock_state ([0, 0, 0, 11] ++ hello_world)))
      _ (fresh_sasldata (mock mock_4096) 9 (mock_state ([0, 0, 0, 11] ++ hello_world))) _
      rfl (by decide) (by decide) rfl (by decide)⟩

/-! ## What the write loop encodes when nothing fails -/

section chunks
variable {W : Type}

theorem div_step (len M : Nat) (hM : 1 ≤ M) (h : M < len) :
    (len - 1) / M = (len - M - 1) / M + 1 := by
  have h1 : len - 1 = (len - M - 1) + M := by omega
  rw [h1, Nat.add_div_right _ (by omega)]

theorem div_one (len M : Nat) (h : M < len) (h2 : len - M ≤ M) : (len - 1) / M = 1 := by
  apply Nat.div_eq_of_lt_le
  · omega
  · omega

/-- The plaintext chunks of a run of the write loop that fell out of the loop
(no encode failure, no short write): `(len - 1) / pbufsize` chunks of `pbufsize`
bytes for `len > pbufsize`, one chunk of `len` bytes otherwise. -/
theorem write_loop_chunks (env : Env W) (d : SASL_DATA) (M : Nat) (hM : 1 ≤ M) :
    ∀ (fuel : Nat) (buf : List Byte) (len : Nat) (s : State W) (rc : Int) (s1 : State W),
      write_loop env fuel d M buf len s = some (LoopExit.fall rc, s1) →
      ∃ evs, s1.trace = s.trace ++ evs ∧
        (encode_inputs evs).length = (if len ≤ M then 1 else (len - 1) / M) ∧
        (encode_inputs evs).flatten =
          buf.take (if len ≤ M then len else M * ((len - 1) / M)) := by
  intro fuel
  induction fuel with
  | zero => intro buf len s rc s1 h; simp [write_loop] at h
  | succ n ih =>
    intro buf len s rc s1 h
    rw [write_loop] at h
    generalize holen : (if len > M then M else len) = olen at h
    generalize hen : env.sasl_encode d.saslconn buf olen s.world = en at h
    split at h
    · simp at h
    · split at h
      · simp at h
      · rename_i rc0 s2 hw
        obtain ⟨f, -, -, hs2⟩ := call_write_some hw
        split at h
        · simp at h
        · split at h
          · rename_i hgt
            have hlen : M < len := by
              split at holen <;> omega
            have hol : olen = M := by
              rw [← holen, if_pos hlen]
            obtain ⟨evs, ht, hcount, hflat⟩ := ih _ _ _ _ _ h
            refine ⟨Event.sasl_encode d.saslconn buf olen en.1 en.2.1 ::
              Event.conn_write f s.conn en.2.1 en.2.1.length rc0 :: evs, ?_, ?_, ?_⟩
            · rw [ht, hs2]; simp
            · have hng : ¬ len ≤ M := by omega
              have hng2 : ¬ len - olen ≤ M := by omega
              rw [if_neg hng2] at hcount
              rw [if_neg hng]
              simp only [encode_inputs, List.filterMap_cons, Event.plain, List.length_cons]
              simp only [encode_inputs] at hcount
              rw [hcount, hol, div_step len M hM hlen]
            · have hng : ¬ len ≤ M := by omega
              have hng2 : ¬ len - olen ≤ M := by omega
              rw [if_neg hng2] at hflat
              rw [if_neg hng]
              simp only [encode_inputs, List.filterMap_cons, Event.plain, List.flatten_cons]
              simp only [encode_inputs] at hflat
              rw [hflat, hol, div_step len M hM hlen, Nat.mul_add, Nat.mul_one,
                Nat.add_comm (M * _) M, List.take_add]
          · rename_i hngt
            simp only [Option.some.injEq, Prod.mk.injEq, LoopExit.fall.injEq] at h
            obtain ⟨-, rfl⟩ := h
            refine ⟨[Event.sasl_encode d.saslconn buf olen en.1 en.2.1,
              Event.conn_write f s.conn en.2.1 en.2.1.length rc0], ?_, ?_, ?_⟩
            · rw [hs2]; simp
            · simp only [encode_inputs, List.filterMap_cons, Event.plain, List.filterMap_nil,
                List.length_cons, List.length_nil]
              split
              · rfl
              · rename_i hng
                have hlen : M < len := by omega
                have hol : olen = M := by rw [← holen, if_pos hlen]
                rw [div_one len M hlen (by omega)]
            · simp only [encode_inputs, List.filterMap_cons, Event.plain, List.filterMap_nil,
                List.flatten_cons, List.flatten_nil, List.append_nil]
              split
              · rename_i hle
                have hol : olen = len := by rw [← holen, if_neg (by omega)]
                rw [hol]
              · rename_i hng
                have hlen : M < len := by omega
                have hol : olen = M := by rw [← holen, if_pos hlen]
                rw [div_one len M hlen (by omega), Nat.mul_one, hol]

/-- The plaintext the layered write hands to `sasl_encode` when it ends
without failure (result not negative): for an input of `len` bytes and max
buffer size `M >= 1` it is the first `M * ((len - 1) / M)` bytes when `len > M`,
in `(len - 1) / M` chunks, and the whole input in one chunk otherwise.  So for
`len > M` the last `len - M * ((len - 1) / M)` bytes, between 1 and `M`, are
never encoded. -/
theorem write_success_chunks (env : Env W) (fuel : Nat) (buf : List Byte) (len : Nat)
    (s s1 : State W) (a M : Nat) (d : SASL_DATA) (rc : Int)
    (hs : sasldata_of s = some (a, d)) (hssf : d.ssf ≠ 0) (hpb : d.pbufsize = some M)
    (hM : 1 ≤ M)
    (h : mutt_sasl_conn_write env fuel buf len s = some (rc, s1)) (hrc : 0 ≤ rc) :
    ∃ evs, s1.trace = s.trace ++ evs ∧
      (encode_inputs evs).length = (if len ≤ M then 1 else (len - 1) / M) ∧
      (encode_inputs evs).flatten =
        buf.take (if len ≤ M then len else M * ((len - 1) / M)) ∧
      (M < len →
        1 ≤ len - M * ((len - 1) / M) ∧
        len - M * ((len - 1) / M) ≤ M) := by
  unfold mutt_sasl_conn_write at h
  rw [hs] at h
  simp only [hpb] at h
  split at h
  · split at h
    · simp at h
    · simp only [Option.some.injEq, Prod.mk.injEq] at h
      obtain ⟨rfl, -⟩ := h
      omega
    · rename_i rc0 s0 hl
      simp only [Option.some.injEq, Prod.mk.injEq] at h
      obtain ⟨rfl, rfl⟩ := h
      obtain ⟨evs, ht, hcount, hflat⟩ := write_loop_chunks env d M hM _ _ _ _ _ _ hl
      refine ⟨evs, by simpa [relayer, set_sockdata] using ht, hcount, hflat, ?_⟩
      intro hlt
      have h1 := Nat.div_mul_le_self (len - 1) M
      have h2 := Nat.lt_succ_iff.2 (Nat.le_refl ((len - 1) / M))
      have h3 : len - 1 < M * ((len - 1) / M + 1) := by
        have := Nat.lt_mul_div_succ (len - 1) (show 0 < M by omega)
        simpa [Nat.mul_add] using this
      rw [Nat.mul_comm] at h1
      rw [Nat.mul_add, Nat.mul_one] at h3
      omega
  · rename_i hz
    exact absurd hssf hz

end chunks

/-! ## Close and the fast path of read -/

/-- C11 (unconditional close): on a connection layered on `d` whose saved close
slot is the transport function `f`, `mutt_sasl_conn_close` returns, and what it
did is exactly: dispose the security context, then call `f` once, on the
connection with the saved data-slot and the four saved function-slots already
put back; its result is the result of that call, unchanged.  Whatever that
result is (the collaborators are arbitrary, so failure results are included),
the connection is left restored, the security context disposed and the Layer
State freed. -/
theorem C11_unconditional_close {W : Type} (env : Env W) (s : State W) (a f : Nat)
    (d : SASL_DATA) (rc : Int)
    (hs : sasldata_of s = some (a, d)) (hf : d.msasl_close = Method.native f)
    (hrc : rc = (env.conn_close f d.sockdata (env.sasl_dispose d.saslconn s.world)).1) :
    ∃ s1,
      mutt_sasl_conn_close env s = some (rc, s1) ∧
      s1.trace = s.trace ++
        [Event.sasl_dispose d.saslconn, Event.conn_close f (unlayered_conn s.conn d) rc] ∧
      s1.conn = unlayered_conn s.conn d ∧
      s1.conn.sockdata = d.sockdata ∧
      s1.conn.conn_open = d.msasl_open ∧
      s1.conn.conn_close = d.msasl_close ∧
      s1.conn.conn_read = d.msasl_read ∧
      s1.conn.conn_write = d.msasl_write ∧
      s1.heap a = none ∧
      s1.world = (env.conn_close f d.sockdata (env.sasl_dispose d.saslconn s.world)).2 := by
  subst hrc
  have hcall : ∀ s0 : State W, call_close env d.msasl_close s0 =
      some ((env.conn_close f s0.conn.sockdata s0.world).1,
        { s0 with
          world := (env.conn_close f s0.conn.sockdata s0.world).2
          trace := s0.trace ++
            [Event.conn_close f s0.conn (env.conn_close f s0.conn.sockdata s0.world).1] }) := by
    intro s0
    rw [hf]
    rfl
  unfold mutt_sasl_conn_close
  rw [hs]
  dsimp only
  rw [hcall]
  refine ⟨_, rfl, ?_, rfl, rfl, rfl, rfl, rfl, rfl, ?_, rfl⟩
  · simp only [List.append_assoc, List.singleton_append]
    rfl
  · simp [heapFree]

/-- Witness of C11: the transport close fails with -1; the layered close returns
-1 and the connection is restored all the same. -/
theorem C11_unconditional_close_witness :
    ∃ s1,
      mutt_sasl_conn_close (mock_failing_close mock_4096)
        (installed (mock_failing_close mock_4096) 9 (mock_state [])) = some (-1, s1) ∧
      s1.trace = (installed (mock_failing_close mock_4096) 9 (mock_state [])).trace ++
        [Event.sasl_dispose (fresh_sasldata (mock_failing_close mock_4096) 9
            (mock_state [])).saslconn,
          Event.conn_close 2
            (unlayered_conn
              (installed (mock_failing_close mock_4096) 9 (mock_state [])).conn
              (fresh_sasldata (mock_failing_close mock_4096) 9 (mock_state []))) (-1)] ∧
      s1.conn = unlayered_conn
        (installed (mock_failing_close mock_4096) 9 (mock_state [])).conn
        (fresh_sasldata (mock_failing_close mock_4096) 9 (mock_state [])) ∧
      s1.conn.sockdata = (fresh_sasldata (mock_failing_close mock_4096) 9
        (mock_state [])).sockdata ∧
      s1.conn.conn_open = (fresh_sasldata (mock_failing_close mock_4096) 9
        (mock_state [])).msasl_open ∧
      s1.conn.conn_close = (fresh_sasldata (mock_failing_close mock_4096) 9
        (mock_state [])).msasl_close ∧
      s1.conn.conn_read = (fresh_sasldata (mock_failing_close mock_4096) 9
        (mock_state [])).msasl_read ∧
      s1.conn.conn_write = (fresh_sasldata (mock_failing_close mock_4096) 9
        (mock_state [])).msasl_write ∧
      s1.heap 0 = none ∧
      s1.world = ((mock_failing_close mock_4096).conn_close 2
        (fresh_sasldata (mock_failing_close mock_4096) 9 (mock_state [])).sockdata
        ((mock_failing_close mock_4096).sasl_dispose
          (fresh_sasldata (mock_failing_close mock_4096) 9 (mock_state [])).saslconn
          (installed (mock_failing_close mock_4096) 9 (mock_state [])).world)).2 :=
  C11_unconditional_close (mock_failing_close mock_4096)
    (installed (mock_failing_close mock_4096) 9 (mock_state [])) 0 2
    (fresh_sasldata (mock_failing_close mock_4096) 9 (mock_state [])) (-1) rfl rfl (by decide)

/-- C13 (read fast path): when the pending buffer has unread bytes
(`bpos < blen`), `mutt_sasl_conn_read` with requested length `len` returns
`olen = min len (blen - bpos)`; the caller's buffer then starts with the `olen`
bytes of the pending buffer from offset `bpos` on and is unchanged behind them;
the offset has advanced by `olen`; connection, world and trace are as before,
so no transport read and no decode call (no call at all) was made; and the
result never exceeds `len`.  For a Layer State whose `blen` is covered by its
buffer, as in every state reached from install, these are `olen` bytes indeed,
the first `olen` of the pending bytes. -/
theorem C13_read_fast_path {W : Type} (env : Env W) (fuel : Nat) (buf : List Byte)
    (len olen : Nat) (s : State W) (a : Nat) (d : SASL_DATA)
    (hs : sasldata_of s = some (a, d)) (hlt : d.bpos < d.blen)
    (holen : olen = min len (d.blen - d.bpos)) :
    ∃ s1,
      mutt_sasl_conn_read env fuel buf len s =
        some ((olen : Int), (d.buf.drop d.bpos).take olen ++ buf.drop olen, s1) ∧
      sasldata_of s1 = some (a, { d with bpos := d.bpos + olen }) ∧
      s1.conn = s.conn ∧ s1.world = s.world ∧ s1.trace = s.trace ∧
      (olen : Int) ≤ (len : Int) ∧
      (d.blen ≤ d.buf.length →
        ((d.buf.drop d.bpos).take olen).length = olen ∧
        delivered (olen : Int) ((d.buf.drop d.bpos).take olen ++ buf.drop olen) =
          (pending d).take olen) := by
  have hol : (if d.blen - d.bpos > len then len else d.blen - d.bpos) = olen := by
    rw [holen]; split <;> omega
  refine ⟨relayer s a { d with bpos := d.bpos + olen }, ?_, sasldata_of_relayer _ _ _, ?_,
    rfl, rfl, ?_, ?_⟩
  · unfold mutt_sasl_conn_read
    rw [hs]
    simp only [gt_iff_lt, hlt, if_true]
    simp only [gt_iff_lt] at hol
    rw [hol]
    rfl
  · obtain ⟨hp, -⟩ := sasldata_of_some hs
    simp only [relayer]
    rw [← hp]
  · have : olen ≤ len := by rw [holen]; exact Nat.min_le_left _ _
    exact_mod_cast this
  · intro hinv
    have hle : olen ≤ (d.buf.drop d.bpos).length := by
      rw [List.length_drop]; omega
    refine ⟨by rw [List.length_take]; omega, ?_⟩
    have h1 := delivered_memcpy buf (d.buf.drop d.bpos) olen hle
    unfold memcpy at h1
    rw [h1]
    unfold pending
    rw [List.take_take]
    congr 1
    omega

/-- Witness of C13: after a first layered read of 5 bytes of "HELLO WORLD", 6
decoded bytes are pending at offset 5; a read of 4 bytes is served from them. -/
theorem C13_read_fast_path_witness :
    ∃ s1,
      mutt_sasl_conn_read (mock mock_4096) 0 [0, 0, 0, 0] 4
        (relayer (installed (mock mock_4096) 9 (mock_state [])) 0
          { fresh_sasldata (mock mock_4096) 9 (mock_state []) with
            buf := hello_world, blen := 11, bpos := 5 }) =
        some (((4 : Nat) : Int), (hello_world.drop 5).take 4 ++ [0, 0, 0, 0].drop 4, s1) ∧
      sasldata_of s1 = some (0,
        { fresh_sasldata (mock mock_4096) 9 (mock_state []) with
          buf := hello_world, blen := 11, bpos := 5 + 4 }) ∧
      s1.conn = (relayer (installed (mock mock_4096) 9 (mock_state [])) 0
          { fresh_sasldata (mock mock_4096) 9 (mock_state []) with
            buf := hello_world, blen := 11, bpos := 5 }).conn ∧
      s1.world = (relayer (installed (mock mock_4096) 9 (mock_state [])) 0
          { fresh_sasldata (mock mock_4096) 9 (mock_state []) with
            buf := hello_world, blen := 11, bpos := 5 }).world ∧
      s1.trace = (relayer (installed (mock mock_4096) 9 (mock_state [])) 0
          { fresh_sasldata (mock mock_4096) 9 (mock_state []) with
            buf := hello_world, blen := 11, bpos := 5 }).trace ∧
      ((4 : Nat) : Int) ≤ ((4 : Nat) : Int) ∧
      ((11 : Nat) ≤ hello_world.length →
        ((hello_world.drop 5).take 4).length = 4 ∧
        delivered ((4 : Nat) : Int) ((hello_world.drop 5).take 4 ++ [0, 0, 0, 0].drop 4) =
          (pending { fresh_sasldata (mock mock_4096) 9 (mock_state []) with
            buf := hello_world, blen := 11, bpos := 5 }).take 4) :=
  C13_read_fast_path (mock mock_4096) 0 [0, 0, 0, 0] 4 4
    (relayer (installed (mock mock_4096) 9 (mock_state [])) 0
      { fresh_sasldata (mock mock_4096) 9 (mock_state []) with
        buf := hello_world, blen := 11, bpos := 5 }) 0
    { fresh_sasldata (mock mock_4096) 9 (mock_state []) with
      buf := hello_world, blen := 11, bpos := 5 }
    (sasldata_of_relayer _ _ _) (by decide) (by decide)

/-! ## The pending-buffer invariant and the strength factor -/

section invariant
variable {W : Type}

theorem open_same {env : Env W} {s s1 : State W} {a : Nat} {d : SASL_DATA} {rc : Int}
    (hs : sasldata_of s = some (a, d)) (h : mutt_sasl_conn_open env s = some (rc, s1)) :
    sasldata_of s1 = some (a, d) := by
  unfold mutt_sasl_conn_open at h
  rw [hs] at h
  simp only at h
  split at h
  · simp at h
  · simp only [Option.some.injEq, Prod.mk.injEq] at h
    obtain ⟨-, rfl⟩ := h
    exact sasldata_of_relayer _ _ _

theorem write_same {env : Env W} {fuel : Nat} {buf : List Byte} {len : Nat}
    {s s1 : State W} {a : Nat} {d : SASL_DATA} {rc : Int}
    (hs : sasldata_of s = some (a, d))
    (h : mutt_sasl_conn_write env fuel buf len s = some (rc, s1)) :
    sasldata_of s1 = some (a, d) := by
  unfold mutt_sasl_conn_write at h
  rw [hs] at h
  simp only at h
  split at h
  · split at h
    · simp at h
    · split at h
      · simp at h
      · simp only [Option.some.injEq, Prod.mk.injEq] at h
        obtain ⟨-, rfl⟩ := h
        exact sasldata_of_relayer _ _ _
      · simp only [Option.some.injEq, Prod.mk.injEq] at h
        obtain ⟨-, rfl⟩ := h
        exact sasldata_of_relayer _ _ _
  · split at h
    · simp at h
    · simp only [Option.some.injEq, Prod.mk.injEq] at h
      obtain ⟨-, rfl⟩ := h
      exact sasldata_of_relayer _ _ _

/-- Every return of the layered read leaves `bpos <= blen`, and `blen` covered
by the buffer if it was so before. -/
theorem read_inv {env : Env W} {fuel : Nat} {buf buf1 : List Byte} {len : Nat}
    {s s1 : State W} {a : Nat} {d : SASL_DATA} {rc : Int}
    (hs : sasldata_of s = some (a, d))
    (h : mutt_sasl_conn_read env fuel buf len s = some (rc, buf1, s1)) :
    ∃ d1, sasldata_of s1 = some (a, d1) ∧ d1.bpos ≤ d1.blen ∧
      (d.blen ≤ d.buf.length → d1.blen ≤ d1.buf.length) := by
  unfold mutt_sasl_conn_read at h
  rw [hs] at h
  simp only at h
  split at h
  · rename_i hgt
    simp only [Option.some.injEq, Prod.mk.injEq] at h
    obtain ⟨-, -, rfl⟩ := h
    refine ⟨_, sasldata_of_relayer _ _ _, ?_, fun hc => hc⟩
    show d.bpos + (if d.blen - d.bpos > len then len else d.blen - d.bpos) ≤ d.blen
    split <;> omega
  · split at h
    · split at h
      · simp at h
      · rename_i rc0 d0 b0 s0 hl
        simp only [Option.some.injEq, Prod.mk.injEq] at h
        obtain ⟨-, -, rfl⟩ := h
        obtain ⟨-, hbp, -⟩ := read_loop_calls env len _ _ _ _ _ _ _ _ hl
        obtain ⟨-, -, hle, -⟩ := read_loop_decoded env len _ _ _ _ _ _ _ _ rfl hl
        have hb0 : d0.bpos = 0 := hbp
        exact ⟨d0, sasldata_of_relayer _ _ _, by omega, fun _ => hle⟩
      · rename_i rc0 d0 b0 s0 hl
        simp only [Option.some.injEq, Prod.mk.injEq] at h
        obtain ⟨-, -, rfl⟩ := h
        obtain ⟨-, hbp, -⟩ := read_loop_calls env len _ _ _ _ _ _ _ _ hl
        obtain ⟨-, -, hle, -⟩ := read_loop_decoded env len _ _ _ _ _ _ _ _ rfl hl
        have hb0 : d0.bpos = 0 := hbp
        refine ⟨_, sasldata_of_relayer _ _ _, ?_, fun _ => hle⟩
        show d0.bpos + (if d0.blen - d0.bpos > len then len else d0.blen - d0.bpos) ≤ d0.blen
        split <;> omega
    · split at h
      · simp at h
      · simp only [Option.some.injEq, Prod.mk.injEq] at h
        obtain ⟨-, -, rfl⟩ := h
        exact ⟨_, sasldata_of_relayer _ _ _, Nat.le_refl 0, fun _ => Nat.zero_le _⟩

theorem layered_call_inv {env : Env W} {fuel : Nat} {c : Call} {s s1 : State W} {a : Nat}
    {d : SASL_DATA} {r : Reply}
    (hs : sasldata_of s = some (a, d)) (hb : d.bpos ≤ d.blen) (hc : d.blen ≤ d.buf.length)
    (h : layered_call env fuel c s = some (r, s1)) :
    ∃ d1, sasldata_of s1 = some (a, d1) ∧ d1.bpos ≤ d1.blen ∧ d1.blen ≤ d1.buf.length := by
  cases c with
  | c_open =>
    simp only [layered_call, Option.map_eq_some', Prod.mk.injEq] at h
    obtain ⟨⟨rc, s0⟩, h0, -, rfl⟩ := h
    exact ⟨d, open_same hs h0, hb, hc⟩
  | c_read buf len =>
    simp only [layered_call, Option.map_eq_some', Prod.mk.injEq] at h
    obtain ⟨⟨rc, b, s0⟩, h0, -, rfl⟩ := h
    obtain ⟨d1, h1, hb1, hc1⟩ := read_inv hs h0
    exact ⟨d1, h1, hb1, hc1 hc⟩
  | c_write buf len =>
    simp only [layered_call, Option.map_eq_some', Prod.mk.injEq] at h
    obtain ⟨⟨rc, s0⟩, h0, -, rfl⟩ := h
    exact ⟨d, write_same hs h0, hb, hc⟩

theorem conn_run_inv (env : Env W) (fuel : Nat) :
    ∀ (calls : List Call) (s s1 : State W) (a : Nat) (d : SASL_DATA) (rs : List Reply),
      Layered s a d → d.bpos ≤ d.blen → d.blen ≤ d.buf.length →
      conn_run env fuel calls s = some (rs, s1) →
      ∃ d1, sasldata_of s1 = some (a, d1) ∧ d1.bpos ≤ d1.blen ∧ d1.blen ≤ d1.buf.length := by
  intro calls
  induction calls with
  | nil =>
    intro s s1 a d rs hl hb hc h
    simp only [conn_run, Option.some.injEq, Prod.mk.injEq] at h
    obtain ⟨-, rfl⟩ := h
    exact ⟨d, hl.1, hb, hc⟩
  | cons c cs ih =>
    intro s s1 a d rs hl hb hc h
    rw [conn_run] at h
    split at h
    · simp at h
    · rename_i r s0 hcall
      split at h
      · simp at h
      · rename_i rs0 s2 hrun
        simp only [Option.some.injEq, Prod.mk.injEq] at h
        obtain ⟨-, rfl⟩ := h
        rw [conn_call_layered hl] at hcall
        obtain ⟨d0, hs0, hb0, hc0⟩ := layered_call_inv hl.1 hb hc hcall
        obtain ⟨d0', hl0, -, -⟩ := hl.step (layered_call_kept hl.1 hcall)
        have hdd : d0' = d0 := by
          have := hl0.1.symm.trans hs0
          simp only [Option.some.injEq, Prod.mk.injEq, true_and] at this
          exact this
        subst hdd
        exact ih _ _ _ _ _ hl0 hb0 hc0 hrun

theorem uint_add_eq_iff (x y : Nat) (hx : x < UINT_RANGE) (hy : y < UINT_RANGE) :
    uint_add x y = x ↔ y = 0 := by
  unfold uint_add UINT_RANGE at *
  omega

theorem uint_add_of_lt (x y : Nat) (h : x + y < UINT_RANGE) : uint_add x y = x + y := by
  unfold uint_add
  exact Nat.mod_eq_of_lt h

end invariant

/-- C12 (pending-buffer invariant): `mutt_sasl_setup_conn` leaves (in the state
`s0`) a Layer State with `bpos = 0` and `blen = 0`, and after any sequence of calls through the
layered open, read and write that return, for arbitrary collaborators (any
results of the transport functions, of `sasl_encode` and of `sasl_decode`) and
any requested lengths, the Layer State has `bpos <= blen` (and `blen` is covered
by the bytes held in `buf`). -/
theorem C12_pending_invariant {W : Type} (env : Env W) (fuel saslconn : Nat)
    (s s0 s1 : State W) (calls : List Call) (replies : List Reply)
    (hinst : mutt_sasl_setup_conn env saslconn s = some s0)
    (hrun : conn_run env fuel calls s0 = some (replies, s1)) :
    (∃ d0, sasldata_of s0 = some (s.brk, d0) ∧ d0.bpos = 0 ∧ d0.blen = 0) ∧
    ∃ d1, sasldata_of s1 = some (s.brk, d1) ∧ d1.bpos ≤ d1.blen ∧ d1.blen ≤ d1.buf.length := by
  have hl := setup_conn_layered hinst
  exact ⟨⟨_, hl.1, rfl, rfl⟩,
    conn_run_inv env fuel calls _ _ _ _ _ hl (Nat.le_refl 0) (Nat.zero_le _) hrun⟩

/-- Witness of C12: "HELLO WORLD" framed on the wire; a read of 5 bytes, an
open, a write that ends by a short write, and a read of 1 byte leave the offset
at 6 of 11. -/
theorem C12_pending_invariant_witness :
    ∃ replies s1,
      conn_run (mock mock_short) 5
        [Call.c_read [0, 0, 0, 0, 0] 5, Call.c_open, Call.c_write [1, 2, 3] 3,
          Call.c_read [0] 1]
        (installed (mock mock_short) 9
          (mock_state ([0, 0, 0, 11] ++ hello_world))) = some (replies, s1) ∧
      replies.map Reply.rc = [5, 0, -1, 1] ∧
      (sasldata_of s1).map (fun r => (r.2.bpos, r.2.blen)) = some (6, 11) ∧
      (∃ d0, sasldata_of (installed (mock mock_short) 9
          (mock_state ([0, 0, 0, 11] ++ hello_world))) =
            some ((mock_state ([0, 0, 0, 11] ++ hello_world)).brk, d0) ∧
        d0.bpos = 0 ∧ d0.blen = 0) ∧
      ∃ d1, sasldata_of s1 = some ((mock_state ([0, 0, 0, 11] ++ hello_world)).brk, d1) ∧
        d1.bpos ≤ d1.blen ∧ d1.blen ≤ d1.buf.length :=
  ⟨_, _, rfl, by decide, by decide,
    C12_pending_invariant (mock mock_short) 5 9 (mock_state ([0, 0, 0, 11] ++ hello_world))
      (installed (mock mock_short) 9 (mock_state ([0, 0, 0, 11] ++ hello_world))) _
      [Call.c_read [0, 0, 0, 0, 0] 5, Call.c_open, Call.c_write [1, 2, 3] 3, Call.c_read [0] 1]
      _ rfl rfl⟩

/-- C14 (strength factor survives teardown): `mutt_sasl_setup_conn` (which
leaves the state `s0`) sets the connection's cumulative strength factor to the `unsigned int` sum of its
previous value and the strength factor `sv` read from the security context; no
sequence of layered open, read and write calls changes it, and neither does
`mutt_sasl_conn_close`.  So after install, any such calls and close, the counter
is that sum, which is the previous value plus `sv` whenever this fits an
`unsigned int`, and it is the previous value exactly when `sv = 0`. -/
theorem C14_strength_factor_survives {W : Type} (env : Env W) (fuel saslconn f sv : Nat)
    (s s0 s1 : State W) (calls : List Call) (replies : List Reply)
    (hsv : (env.sasl_getprop saslconn SaslProp.SASL_SSF s.world).2.1 = some sv)
    (hpre : s.conn.ssf < UINT_RANGE) (hsvr : sv < UINT_RANGE)
    (hclose : s.conn.conn_close = Method.native f)
    (hinst : mutt_sasl_setup_conn env saslconn s = some s0)
    (hrun : conn_run env fuel calls s0 = some (replies, s1)) :
    s0.conn.ssf = uint_add s.conn.ssf sv ∧
    s1.conn.ssf = uint_add s.conn.ssf sv ∧
    ∃ rc s2, mutt_sasl_conn_close env s1 = some (rc, s2) ∧
      s2.conn.ssf = uint_add s.conn.ssf sv ∧
      (s.conn.ssf + sv < UINT_RANGE → s2.conn.ssf = s.conn.ssf + sv) ∧
      (s2.conn.ssf = s.conn.ssf ↔ sv = 0) := by
  obtain ⟨ssf, hssf, hc0, -, -⟩ := setup_conn_some hinst
  obtain rfl : ssf = sv := Option.some.inj (hssf.symm.trans hsv)
  have hs0 : s0.conn.ssf = uint_add s.conn.ssf ssf := by rw [hc0]
  obtain ⟨d1, hl1, hf1, hc1⟩ :=
    conn_run_layered env fuel calls _ _ _ _ _ (setup_conn_layered hinst) hrun
  have hcl : d1.msasl_close = Method.native f := by
    have := congrArg SASL_DATA.msasl_close hf1
    exact this.trans hclose
  obtain ⟨rc, s2, h2, hc2⟩ := close_restores hl1.1 hcl
  have hs1 : s1.conn.ssf = uint_add s.conn.ssf ssf := by
    rw [hc1]; exact hs0
  have hs2 : s2.conn.ssf = uint_add s.conn.ssf ssf := by
    rw [hc2]; exact hs1
  refine ⟨hs0, hs1, rc, s2, h2, hs2, ?_, ?_⟩
  · intro hfit
    rw [hs2, uint_add_of_lt _ _ hfit]
  · rw [hs2]
    exact uint_add_eq_iff _ _ hpre hsvr

/-- Witness of C14: a connection whose strength factor is already 128 gets the
SASL layer of strength 56; after a write, a read and the close it is 184. -/
theorem C14_strength_factor_survives_witness :
    ∃ replies s1,
      conn_run (mock mock_4096) 5 [Call.c_write hello_world 11, Call.c_read [0, 0, 0, 0, 0] 5]
        (installed (mock mock_4096) 9 (mock_state_128 [])) = some (replies, s1) ∧
      (installed (mock mock_4096) 9 (mock_state_128 [])).conn.ssf =
        uint_add (mock_state_128 []).conn.ssf 56 ∧
      s1.conn.ssf = uint_add (mock_state_128 []).conn.ssf 56 ∧
      ∃ rc s2, mutt_sasl_conn_close (mock mock_4096) s1 = some (rc, s2) ∧
        s2.conn.ssf = uint_add (mock_state_128 []).conn.ssf 56 ∧
        ((mock_state_128 []).conn.ssf + 56 < UINT_RANGE →
          s2.conn.ssf = (mock_state_128 []).conn.ssf + 56) ∧
        (s2.conn.ssf = (mock_state_128 []).conn.ssf ↔ 56 = 0) :=
  ⟨_, _, rfl,
    C14_strength_factor_survives (mock mock_4096) 5 9 2 56 (mock_state_128 [])
      (installed (mock mock_4096) 9 (mock_state_128 [])) _
      [Call.c_write hello_world 11, Call.c_read [0, 0, 0, 0, 0] 5] _
      rfl (by decide) (by decide) rfl rfl rfl⟩

end MuttSasl
